import Mathlib

/-!
Verification development for the buffered-stream core of the repository
(`buffer.go`) and its metadata poller (`MetadataReader`).

The Go code is shallowly embedded:

* the `BufferedStream` mutable struct becomes the structure `BS`
  (bytes are modelled as `Nat`, `time.Duration` values as `Nat`
  nanoseconds);
* each mutex-protected critical section of the Go code becomes one pure
  transition on a system state `Sys`; a run of the concurrent program is
  a list of scheduler actions (`Act`) folded over the state by `run`;
* the producer goroutine `fillLoop` is linearized by a program counter
  `ProdPC`; its network inputs (results of `resp.Body.Read` and
  `connect`) are supplied by the action script;
* blocking (`cond.Wait`, the backoff sleep, channel sends) is modelled
  by steps that leave the state unchanged until the wake condition
  holds, exactly as the Go wait loops re-check their conditions.
-/

/-- `BufferState` from buffer.go (lines 12-21). -/
inductive BufferState
  | buffering
  | healthy
  | underrun
  | error
  | closed
deriving DecidableEq, Repr

/-- Errors recorded by `fillLoop` via `setError`.  `streamEndedUnexpectedly`
models `fmt.Errorf("stream ended unexpectedly")`; `maxRetriesExceeded i`
models `fmt.Errorf("max retries exceeded: %w", err)` wrapping the underlying
read error identified by `i`. -/
inductive GoError
  | streamEndedUnexpectedly
  | maxRetriesExceeded (id : Nat)
deriving DecidableEq, Repr

/-- The error value returned by `resp.Body.Read`: `io.EOF` or some other
(network) error, identified by a numeric tag. -/
inductive ReadErr
  | eof
  | other (id : Nat)
deriving DecidableEq, Repr

/-- `ReconnectConfig` from buffer.go (lines 47-53).  Durations are in
nanoseconds.  `backoffFactor` is `float64` in Go; the multiplication
`time.Duration(float64(backoff) * factor)` with the default factor 2.0 is
exact for durations below 2^52 ns, so the factor is modelled as a `Nat`. -/
structure ReconnectConfig where
  initialBackoff : Nat
  maxBackoff : Nat
  backoffFactor : Nat
  maxRetries : Nat
deriving DecidableEq, Repr

/-- `DefaultReconnectConfig` from buffer.go (lines 56-63). -/
def defaultReconnectConfig : ReconnectConfig :=
  { initialBackoff := 1000000000
    maxBackoff := 30000000000
    backoffFactor := 2
    maxRetries := 0 }

/-- Buffer size constants from buffer.go (lines 66-73). -/
def defaultBufferCapacity : Nat := 256 * 1024

def defaultHighWatermark : Nat := 32 * 1024

def defaultLowWatermark : Nat := 16 * 1024

def defaultReadChunkSize : Nat := 8 * 1024

def defaultStatsInterval : Nat := 8

/-- The mutex-protected state of a `BufferedStream` (buffer.go lines 76-107):
the ring buffer (`buf`, `capacity`, `readPos`, `writePos`, `filled`), the
`closed` flag, the watermarks, and the state tracking fields. -/
structure BS where
  buf : List Nat
  capacity : Nat
  readPos : Nat
  writePos : Nat
  filled : Nat
  closed : Bool
  highWatermark : Nat
  lowWatermark : Nat
  state : BufferState
  lastError : Option GoError
  initialFill : Bool
  writeCount : Nat
deriving DecidableEq, Repr

/-- Go's `copy(buf[pos:], data)` for `pos + data.length ≤ buf.length`:
overwrite `data.length` entries of `buf` starting at `pos`. -/
def copyAt (buf : List Nat) (pos : Nat) (data : List Nat) : List Nat :=
  buf.take pos ++ data ++ buf.drop (pos + data.length)

/-- The bytes currently stored in the ring buffer, in FIFO order: `filled`
bytes starting at `readPos`, wrapping modulo the capacity. -/
def contents (bs : BS) : List Nat :=
  (bs.buf.rotate bs.readPos).take bs.filled

/-- One iteration of the copy loop inside `writeToBuffer` (buffer.go lines
246-293), taken when `available > 0`: write
`toWrite = min data.length available` bytes at `writePos` (split in two
copies on wraparound), advance `writePos`, grow `filled`, update
`initialFill`/`state` and the periodic-stats counter.  Returns the updated
stream state and the bytes of `data` not yet written. -/
def writeStep (bs : BS) (data : List Nat) : BS × List Nat :=
  let available := bs.capacity - bs.filled
  let toWrite := min data.length available
  let endSpace := bs.capacity - bs.writePos
  let buf' :=
    if toWrite ≤ endSpace then
      copyAt bs.buf bs.writePos (data.take toWrite)
    else
      copyAt (copyAt bs.buf bs.writePos (data.take endSpace)) 0
        ((data.take toWrite).drop endSpace)
  let writePos' :=
    if toWrite ≤ endSpace then (bs.writePos + toWrite) % bs.capacity
    else toWrite - endSpace
  let filled' := bs.filled + toWrite
  let initialFill' :=
    if bs.initialFill = true ∧ bs.highWatermark ≤ filled' then false
    else bs.initialFill
  let state' :=
    if bs.initialFill = true ∧ bs.highWatermark ≤ filled' then
      BufferState.healthy
    else if bs.initialFill = false ∧ bs.state = BufferState.underrun ∧
        bs.lowWatermark ≤ filled' then
      BufferState.healthy
    else bs.state
  let writeCount' :=
    if defaultStatsInterval ≤ bs.writeCount + 1 then 0 else bs.writeCount + 1
  ({ bs with
      buf := buf'
      writePos := writePos'
      filled := filled'
      initialFill := initialFill'
      state := state'
      writeCount := writeCount' },
    data.drop toWrite)

/-- The copy-out part of `Read` (buffer.go lines 333-354), reached once the
wait loop has fallen through with `filled > 0`: read
`toRead = min n filled` bytes starting at `readPos` (two copies on
wraparound), advance `readPos`, shrink `filled`.  Returns the updated
stream state and the bytes delivered to the caller. -/
def readData (bs : BS) (n : Nat) : BS × List Nat :=
  let toRead := min n bs.filled
  let endSpace := bs.capacity - bs.readPos
  let out :=
    if toRead ≤ endSpace then (bs.buf.drop bs.readPos).take toRead
    else bs.buf.drop bs.readPos ++ bs.buf.take (toRead - endSpace)
  let readPos' :=
    if toRead ≤ endSpace then (bs.readPos + toRead) % bs.capacity
    else toRead - endSpace
  ({ bs with readPos := readPos', filled := bs.filled - toRead }, out)

/-- `updateState` from buffer.go (lines 392-401). -/
def updState (bs : BS) (st : BufferState) : BS :=
  if bs.state = st then bs else { bs with state := st }

/-- `setError` from buffer.go (lines 381-390). -/
def setErrorB (bs : BS) (e : GoError) : BS :=
  { bs with lastError := some e, state := BufferState.error }

/-- The state a `NewBufferedStream` starts in (buffer.go lines 109-126),
parametric in the construction-time configuration surface (spec section 6). -/
def mkBS (cap high low : Nat) : BS :=
  { buf := List.replicate cap 0
    capacity := cap
    readPos := 0
    writePos := 0
    filled := 0
    closed := false
    highWatermark := high
    lowWatermark := low
    state := BufferState.buffering
    lastError := none
    initialFill := true
    writeCount := 0 }

/-- Program counter for the producer goroutine `fillLoop` (buffer.go lines
163-239), marking the boundaries between its critical sections:

* `top`: about to check the stop channel at the head of the loop;
* `reading`: about to call `resp.Body.Read`;
* `writing e`: inside `writeToBuffer` with the read error `e` still to be
  handled after the write completes;
* `errNet i`: about to run the connection-error path (close the dead
  connection, retry check) for the read error with tag `i`;
* `sleeping`: in the backoff `select`;
* `reconnecting`: about to call `connect`;
* `fatal e`: about to call `setError e` and return;
* `exiting`: returned; about to run the deferred cleanup;
* `exited`: goroutine finished (deferred cleanup done);
* `panicked`: the goroutine panicked (nil response dereference); the
  deferred cleanup ran during unwinding and the process died. -/
inductive ProdPC
  | top
  | reading
  | writing (err : Option ReadErr)
  | errNet (id : Nat)
  | sleeping
  | reconnecting
  | fatal (e : GoError)
  | exiting
  | exited
  | panicked
deriving DecidableEq, Repr

/-- Goroutine-local variables of `fillLoop`: the loop locals `backoff` and
`retries` (buffer.go lines 175-176) and the portion of the current chunk not
yet copied into the ring buffer by `writeToBuffer`. -/
structure ProdState where
  pc : ProdPC
  pendingData : List Nat
  backoff : Nat
  retries : Nat
deriving DecidableEq, Repr

/-- The result of one consumer `Read` call (buffer.go lines 297-355):
bytes delivered, end of stream (`io.EOF`), or the stored error. -/
inductive ReadResult
  | bytes (data : List Nat)
  | eofSig
  | errSig (e : GoError)
deriving DecidableEq, Repr

/-- The whole system: the shared `BufferedStream` state, the producer
goroutine, the reconnect configuration, the `resp` handle (`respOpen =
false` models `bs.resp == nil`), the `stopChan` flag, how many times
`close(bs.statsChan)` has run, the log of consumer read results and the
log of bytes passed to `writeToBuffer`. -/
structure Sys where
  bs : BS
  prod : ProdState
  cfg : ReconnectConfig
  respOpen : Bool
  stopClosed : Bool
  statsClosed : Nat
  outputs : List ReadResult
  written : List Nat
deriving DecidableEq, Repr

/-- The deferred cleanup of `fillLoop` (buffer.go lines 165-172): set the
closed flag, set the state to `Closed`, wake all waiters, close the stats
channel.  It runs both on normal return and during panic unwinding. -/
def cleanup (s : Sys) (next : ProdPC) : Sys :=
  { s with
      bs := { s.bs with closed := true, state := BufferState.closed }
      statsClosed := s.statsClosed + 1
      prod := { s.prod with pc := next } }

/-- Dispatch on the read error after `resp.Body.Read` (buffer.go lines
194-210): no error continues the loop, `io.EOF` is fatal, any other error
enters the connection-error path. -/
def afterRead (s : Sys) (e : Option ReadErr) : Sys :=
  { s with prod := { s.prod with pc :=
      match e with
      | none => ProdPC.top
      | some ReadErr.eof => ProdPC.fatal GoError.streamEndedUnexpectedly
      | some (ReadErr.other i) => ProdPC.errNet i } }

/-- One internal step of the producer goroutine, at its current program
counter.  Translated from `fillLoop` (buffer.go lines 163-239) and the
loop of `writeToBuffer` (lines 246-294). -/
def stepProd (s : Sys) : Sys :=
  match s.prod.pc with
  | ProdPC.top =>
      -- the select at lines 179-183
      if s.stopClosed then { s with prod := { s.prod with pc := ProdPC.exiting } }
      else { s with prod := { s.prod with pc := ProdPC.reading } }
  | ProdPC.writing e =>
      if s.prod.pendingData = [] then
        -- writeToBuffer returned; n > 0, so reset backoff and retries
        -- (lines 188-192), then handle the read error (lines 194 on)
        afterRead { s with prod := { s.prod with
          backoff := s.cfg.initialBackoff, retries := 0 } } e
      else if s.bs.capacity - s.bs.filled = 0 then
        -- buffer full: cond.Wait (lines 249-253); the wait loop re-checks
        -- only the available space, so this is a no-op until a reader
        -- frees space
        s
      else
        let r := writeStep s.bs s.prod.pendingData
        { s with bs := r.1, prod := { s.prod with pendingData := r.2 } }
  | ProdPC.errNet i =>
      -- lines 201-210: close the dead connection, set resp to nil, check
      -- retry exhaustion, else mark Underrun and start the backoff sleep
      let s1 := { s with respOpen := false }
      if 0 < s.cfg.maxRetries ∧ s.cfg.maxRetries ≤ s.prod.retries then
        { s1 with prod := { s1.prod with pc := ProdPC.fatal (GoError.maxRetriesExceeded i) } }
      else
        { s1 with
            bs := updState s1.bs BufferState.underrun
            prod := { s1.prod with pc := ProdPC.sleeping } }
  | ProdPC.sleeping =>
      -- the select at lines 213-217 also observes the stop channel
      if s.stopClosed then { s with prod := { s.prod with pc := ProdPC.exiting } }
      else s
  | ProdPC.fatal e =>
      { s with bs := setErrorB s.bs e, prod := { s.prod with pc := ProdPC.exiting } }
  | ProdPC.exiting => cleanup s ProdPC.exited
  | _ => s

/-- The producer executes `bs.resp.Body.Read(chunk)` (buffer.go line 186)
with outcome `(d, e)` supplied by the environment.  If `bs.resp` is nil —
which `fillLoop` leaves behind after a failed reconnection attempt (lines
202-203, 220-227) — the field access panics; the deferred cleanup runs
during unwinding and the process dies. -/
def stepNetRead (s : Sys) (d : List Nat) (e : Option ReadErr) : Sys :=
  match s.prod.pc with
  | ProdPC.reading =>
      if s.respOpen = false then cleanup s ProdPC.panicked
      else if d = [] then afterRead s e
      else
        { s with
            prod := { s.prod with pc := ProdPC.writing e, pendingData := d }
            written := s.written ++ d }
  | _ => s

/-- The backoff timer fires (`time.After(backoff)`, buffer.go line 216); if
the stop channel is closed the select takes the stop branch instead. -/
def stepSleepDone (s : Sys) : Sys :=
  match s.prod.pc with
  | ProdPC.sleeping =>
      if s.stopClosed then { s with prod := { s.prod with pc := ProdPC.exiting } }
      else { s with prod := { s.prod with pc := ProdPC.reconnecting } }
  | _ => s

/-- The producer calls `connect` (buffer.go lines 219-236) with outcome
`ok` supplied by the environment.  On failure: increment `retries`,
escalate `backoff` capped at `maxBackoff`, and `continue` to the top of
the loop.  On success: store the new response handle and set the state
from the current fill level. -/
def stepConnTry (s : Sys) (ok : Bool) : Sys :=
  match s.prod.pc with
  | ProdPC.reconnecting =>
      if ok then
        { s with
            respOpen := true
            bs := { s.bs with state :=
              if s.bs.lowWatermark ≤ s.bs.filled then BufferState.healthy
              else BufferState.buffering }
            prod := { s.prod with pc := ProdPC.top } }
      else
        { s with prod := { s.prod with
            pc := ProdPC.top
            retries := s.prod.retries + 1
            backoff := min (s.prod.backoff * s.cfg.backoffFactor) s.cfg.maxBackoff } }
  | _ => s

/-- One pass of the consumer through `Read` (buffer.go lines 297-355),
holding the mutex: if `closed`, return the stored error or `io.EOF`;
during the initial fill below the high watermark, wait; if data is
available, copy it out and return it; otherwise mark `Underrun` (unless
already `Underrun`/`Buffering`) and wait.  The waiting branches leave the
state unchanged — the caller re-runs the pass when woken. -/
def stepConsRead (s : Sys) (n : Nat) : Sys :=
  if s.bs.closed then
    match s.bs.lastError with
    | some e => { s with outputs := s.outputs ++ [ReadResult.errSig e] }
    | none => { s with outputs := s.outputs ++ [ReadResult.eofSig] }
  else if s.bs.initialFill = true ∧ s.bs.filled < s.bs.highWatermark then
    s
  else if 0 < s.bs.filled then
    let r := readData s.bs n
    { s with bs := r.1, outputs := s.outputs ++ [ReadResult.bytes r.2] }
  else if s.bs.state ≠ BufferState.underrun ∧ s.bs.state ≠ BufferState.buffering then
    { s with bs := { s.bs with state := BufferState.underrun } }
  else s

/-- A caller runs `Close` to completion without interleaving (buffer.go
lines 357-379): if already closed return; otherwise close the stop
channel, close the response body, set the closed flag and wake everyone.
(`Close` does not set `state`; only the producer's cleanup does.)  The
race between two concurrent `Close` calls is modelled separately by
`CloseSys`. -/
def stepClose (s : Sys) : Sys :=
  if s.bs.closed then s
  else
    { s with
        stopClosed := true
        respOpen := false
        bs := { s.bs with closed := true } }

/-- Scheduler actions: internal producer steps, network-read and connect
outcomes, the backoff timer, consumer reads, and `Close` calls. -/
inductive Act
  | prodStep
  | netRead (data : List Nat) (err : Option ReadErr)
  | sleepDone
  | connTry (ok : Bool)
  | consRead (n : Nat)
  | close
deriving DecidableEq, Repr

/-- One scheduler step.  After a panic the whole process is dead
(a goroutine panic in Go crashes the program), so nothing moves. -/
def step (s : Sys) (a : Act) : Sys :=
  if s.prod.pc = ProdPC.panicked then s
  else
    match a with
    | Act.prodStep => stepProd s
    | Act.netRead d e => stepNetRead s d e
    | Act.sleepDone => stepSleepDone s
    | Act.connTry ok => stepConnTry s ok
    | Act.consRead n => stepConsRead s n
    | Act.close => stepClose s

/-- Run a script of scheduler actions. -/
def run (s : Sys) : List Act → Sys
  | [] => s
  | a :: rest => run (step s a) rest

/-- The system right after a successful `Start` (buffer.go lines 128-139):
initial connection established (`respOpen`), `fillLoop` launched at the
top of its loop. -/
def mkSys (cap high low : Nat) (cfg : ReconnectConfig) : Sys :=
  { bs := mkBS cap high low
    prod := { pc := ProdPC.top, pendingData := [], backoff := cfg.initialBackoff, retries := 0 }
    cfg := cfg
    respOpen := true
    stopClosed := false
    statsClosed := 0
    outputs := []
    written := [] }

/-- Concatenation of the bytes delivered by the read calls of a run. -/
def outputBytes : List ReadResult → List Nat
  | [] => []
  | ReadResult.bytes d :: rest => d ++ outputBytes rest
  | _ :: rest => outputBytes rest

/-- Recognizer for the producer being inside `writeToBuffer`. -/
def isWritingPC : ProdPC → Bool
  | ProdPC.writing _ => true
  | _ => false

/-- Structural invariant of the ring buffer: the backing array has exactly
`capacity` entries, at most `capacity` of them are filled, the read cursor
is in range and the write cursor sits `filled` bytes past the read cursor,
modulo the capacity. -/
def RingInv (bs : BS) : Prop :=
  bs.buf.length = bs.capacity ∧ bs.filled ≤ bs.capacity ∧
  bs.readPos < bs.capacity ∧ bs.writePos = (bs.readPos + bs.filled) % bs.capacity

/-- System-wide FIFO invariant: the ring invariant, the fact that the
producer holds pending (half-written) data only while inside
`writeToBuffer`, and the conservation equation — bytes already delivered
to readers, then the bytes resident in the ring, then the bytes of the
current write call not yet copied, concatenate to exactly the bytes passed
to `writeToBuffer` so far. -/
def SysInv (s : Sys) : Prop :=
  RingInv s.bs ∧
  (isWritingPC s.prod.pc = false → s.prod.pendingData = []) ∧
  outputBytes s.outputs ++ contents s.bs ++ s.prod.pendingData = s.written

/-- The transition graph of spec section 4.2: Buffering→Healthy,
Healthy→Underrun, Underrun→Healthy, Underrun→Buffering, any
non-terminal→Error, any→Closed. -/
def specEdgeB (a b : BufferState) : Bool :=
  (a == BufferState.buffering && b == BufferState.healthy) ||
  (a == BufferState.healthy && b == BufferState.underrun) ||
  (a == BufferState.underrun && b == BufferState.healthy) ||
  (a == BufferState.underrun && b == BufferState.buffering) ||
  (b == BufferState.error && !(a == BufferState.error) && !(a == BufferState.closed)) ||
  (b == BufferState.closed)

/-- The transitions the code can actually take: the graph of spec section
4.2 extended with Buffering→Underrun (connection lost before the first
fill completes, buffer.go line 210) and Error→Underrun (a `Read` call on
an empty buffer observes the `Error` state in the window between
`setError` and the producer's deferred cleanup, buffer.go lines 326-329). -/
def codeEdgeB (a b : BufferState) : Bool :=
  specEdgeB a b ||
  (a == BufferState.buffering && b == BufferState.underrun) ||
  (a == BufferState.error && b == BufferState.underrun)

/-- Control/state invariant tying the producer's program counter to the
published `BufferState`, the `closed` flag and the number of times the
stats channel has been closed. -/
def InvPS (s : Sys) : Prop :=
  ((s.prod.pc = ProdPC.sleeping ∨ s.prod.pc = ProdPC.reconnecting) →
    s.bs.state = BufferState.underrun) ∧
  (s.bs.state = BufferState.error → s.prod.pc = ProdPC.exiting) ∧
  (s.bs.state = BufferState.closed ↔
    (s.prod.pc = ProdPC.exited ∨ s.prod.pc = ProdPC.panicked)) ∧
  (s.bs.state = BufferState.closed → s.bs.closed = true) ∧
  (s.statsClosed = if s.prod.pc = ProdPC.exited ∨ s.prod.pc = ProdPC.panicked then 1 else 0)

/-- Program counter of one caller inside `Close` (buffer.go lines 357-379):
`start` — about to take the mutex and test the `closed` flag (lines
359-364); `chanClose` — past the test with `closed` still false, about to
execute `close(bs.stopChan)` (line 366) and then the rest of `Close`;
`done` — returned. -/
inductive ClosePC
  | start
  | chanClose
  | done
deriving DecidableEq, Repr

/-- Two concurrent callers of `Close`.  `stopChanClosed` is whether
`close(bs.stopChan)` has executed; executing it a second time is a Go
runtime panic ("close of closed channel"). -/
structure CloseSys where
  closed : Bool
  stopChanClosed : Bool
  panicked : Bool
  pcA : ClosePC
  pcB : ClosePC
deriving DecidableEq, Repr

/-- One step of caller A (`t = true`) or B (`t = false`) through `Close`.
The `closed` test and the `close(bs.stopChan)` call are separate critical
sections in the code — the mutex is released between them (buffer.go lines
361-366) — so both callers can pass the test before either closes the
channel; the second `close(bs.stopChan)` then panics. -/
def closeStep (s : CloseSys) (t : Bool) : CloseSys :=
  if s.panicked then s
  else
    match (if t then s.pcA else s.pcB) with
    | ClosePC.start =>
        if s.closed then
          if t then { s with pcA := ClosePC.done } else { s with pcB := ClosePC.done }
        else
          if t then { s with pcA := ClosePC.chanClose }
          else { s with pcB := ClosePC.chanClose }
    | ClosePC.chanClose =>
        if s.stopChanClosed then { s with panicked := true }
        else
          if t then
            { s with stopChanClosed := true, closed := true, pcA := ClosePC.done }
          else
            { s with stopChanClosed := true, closed := true, pcB := ClosePC.done }
    | ClosePC.done => s

/-- Run an interleaving of the two `Close` callers. -/
def closeRun (s : CloseSys) : List Bool → CloseSys
  | [] => s
  | t :: ts => closeRun (closeStep s t) ts

/-- Both callers at the entry of `Close`, stream not yet closed. -/
def closeInit : CloseSys :=
  { closed := false, stopChanClosed := false, panicked := false
    pcA := ClosePC.start, pcB := ClosePC.start }

/-- `TrackInfo` from the metadata reader source file. -/
structure TrackInfo where
  title : String
deriving DecidableEq, Repr

/-- The state of the metadata poller's hand-off: `slot` is the single
buffered value of `updateChan` (`make(chan TrackInfo, 1)`), and
`blockedSend` holds the value of a sender currently blocked in
`mr.updateChan <- trackInfo` because the slot is occupied. -/
structure MetaSys where
  slot : Option TrackInfo
  blockedSend : Option TrackInfo
deriving DecidableEq, Repr

/-- The delivery `mr.updateChan <- trackInfo` executed by the poller
goroutine (`MetadataReader.Start`): a send on a capacity-1 channel.  Go
semantics: if the buffer slot is free the send completes immediately;
otherwise the sending goroutine blocks until a receiver takes a value. -/
def deliver (s : MetaSys) (t : TrackInfo) : MetaSys :=
  match s.slot with
  | none => { s with slot := some t }
  | some _ => { s with blockedSend := some t }

/-- A receive on `updateChan` by the consumer: takes the buffered value;
a sender blocked on the channel then completes its send into the freed
slot. -/
def consume (s : MetaSys) : MetaSys :=
  match s.slot with
  | some _ =>
      match s.blockedSend with
      | some t => { slot := some t, blockedSend := none }
      | none => { s with slot := none }
  | none => s

/-- Small test configuration: backoff 1 starting, cap 30, factor 2,
unlimited retries. -/
def cfgTest : ReconnectConfig :=
  { initialBackoff := 1, maxBackoff := 30, backoffFactor := 2, maxRetries := 0 }

/-- Test configuration with `maxRetries = 3`, as in spec scenario 4. -/
def cfgRetries3 : ReconnectConfig :=
  { initialBackoff := 1, maxBackoff := 30, backoffFactor := 2, maxRetries := 3 }


/-- Script for the C1 witness run on a 4-byte ring: two write calls
totalling 7 bytes (forcing wraparound and a blocked-writer wait),
interleaved with reads that drain the buffer completely. -/
def c1Script : List Act :=
  [Act.prodStep, Act.netRead [1, 2, 3] none, Act.prodStep, Act.prodStep,
   Act.consRead 2, Act.prodStep, Act.netRead [4, 5, 6, 7] none, Act.prodStep,
   Act.prodStep, Act.consRead 2, Act.prodStep, Act.prodStep, Act.consRead 10]

/-- A 2-byte stream in which the producer has written `[1,2]` of a 3-byte
chunk (buffer now full, `[3]` still pending) and `Close` has completed. -/
def c2Sys : Sys :=
  run (mkSys 2 2 1 cfgTest)
    [Act.prodStep, Act.netRead [1, 2, 3] none, Act.prodStep, Act.close]

/-- Run for C3 with `maxRetries = 3`: a network read error, one failed
reconnection attempt, then the producer re-enters the read step. -/
def c3Script : List Act :=
  [Act.prodStep, Act.netRead [] (some (ReadErr.other 1)), Act.prodStep,
   Act.sleepDone, Act.connTry false, Act.prodStep, Act.netRead [] none]

/-- Run in which the stream ends (io.EOF): `setError` runs, then the
deferred cleanup. -/
def fatalEndScript : List Act :=
  [Act.prodStep, Act.netRead [] (some ReadErr.eof), Act.prodStep, Act.prodStep]

/-- A stream state for C7: the producer is about to attempt a reconnection
while its backoff has escalated to 4 (initialBackoff is 1) after two failed
attempts; 3 bytes are resident, above the low watermark 2. -/
def c7Sys : Sys :=
  { bs :=
      { buf := [1, 2, 3, 0, 0, 0, 0, 0]
        capacity := 8
        readPos := 0
        writePos := 3
        filled := 3
        closed := false
        highWatermark := 4
        lowWatermark := 2
        state := BufferState.underrun
        lastError := none
        initialFill := false
        writeCount := 3 }
    prod := { pc := ProdPC.reconnecting, pendingData := [], backoff := 4, retries := 2 }
    cfg := cfgTest
    respOpen := false
    stopClosed := false
    statsClosed := 0
    outputs := []
    written := [1, 2, 3] }

/-- Acts for C7: the reconnection succeeds, then the very next read fails
with no bytes delivered, and the producer reaches the backoff sleep. -/
def c7Script : List Act :=
  [Act.connTry true, Act.prodStep, Act.netRead [] (some (ReadErr.other 5)),
   Act.prodStep]

/-- Run for C8 on an 8-byte ring (high 4, low 2): reach Healthy with 4
bytes, drain to 1 byte, lose the connection, reconnect successfully with
`filled = 1 <` low watermark. -/
def c8Script : List Act :=
  [Act.prodStep, Act.netRead [1, 2, 3, 4] none, Act.prodStep, Act.prodStep,
   Act.consRead 3, Act.prodStep, Act.netRead [] (some (ReadErr.other 0)),
   Act.prodStep, Act.sleepDone, Act.connTry true]

/-- Script for the C10 witness: `Close`, the producer observes the stop
signal and its deferred cleanup runs. -/
def c10Script : List Act := [Act.close, Act.prodStep, Act.prodStep]

lemma copyAt_length (L d : List Nat) (p : Nat) (h : p + d.length ≤ L.length) :
    (copyAt L p d).length = L.length := by
  simp [copyAt, List.length_take, List.length_drop]
  omega

lemma ring_write_noWrap (L d : List Nat) (r f : Nat)
    (h : r + f + d.length ≤ L.length) :
    ((copyAt L (r + f) d).rotate r).take (f + d.length) =
      (L.rotate r).take f ++ d := by
  have hlen : (copyAt L (r + f) d).length = L.length := copyAt_length _ _ _ (by omega)
  rw [List.rotate_eq_drop_append_take (by omega : r ≤ (copyAt L (r+f) d).length),
      List.rotate_eq_drop_append_take (by omega : r ≤ L.length)]
  unfold copyAt
  simp only [List.append_assoc]
  have e1 : (L.take (r + f) ++ (d ++ L.drop (r + f + d.length))).drop r
      = (L.drop r).take f ++ (d ++ L.drop (r + f + d.length)) := by
    rw [List.drop_append_eq_append_drop, List.drop_take,
        List.length_take]
    have : r - (r + f) ⊓ L.length = 0 := by omega
    rw [this, List.drop_zero]
    congr 2
    omega
  have e2 : (L.take (r + f) ++ (d ++ L.drop (r + f + d.length))).take r
      = L.take r := by
    rw [List.take_append_eq_append_take, List.take_take, List.length_take]
    have h0 : r - (r + f) ⊓ L.length = 0 := by omega
    have h1 : r ⊓ (r + f) = r := by omega
    rw [h0, h1]
    simp
  rw [e1, e2]
  have hP : ((L.drop r).take f).length = f := by
    rw [List.length_take, List.length_drop]; omega
  simp only [List.append_assoc]
  rw [List.take_append_eq_append_take, hP,
      List.take_of_length_le (by omega : ((L.drop r).take f).length ≤ f + d.length)]
  have hft : f + d.length - f = d.length := by omega
  rw [hft, List.take_append_eq_append_take,
      List.take_of_length_le (le_refl d.length)]
  have hdd : d.length - d.length = 0 := by omega
  rw [hdd, List.take_zero]
  rw [List.take_append_eq_append_take, List.length_drop]
  have hf0 : f - (L.length - r) = 0 := by omega
  rw [hf0, List.take_zero]
  simp

lemma ring_write_wrapStart (L d : List Nat) (r f : Nat)
    (hrf : L.length ≤ r + f) (hft : f + d.length ≤ L.length) (hr : r < L.length) :
    ((copyAt L (r + f - L.length) d).rotate r).take (f + d.length) =
      (L.rotate r).take f ++ d := by
  have hwt : r + f - L.length + d.length ≤ r := by omega
  have hlen : (copyAt L (r + f - L.length) d).length = L.length :=
    copyAt_length _ _ _ (by omega)
  rw [List.rotate_eq_drop_append_take (by omega : r ≤ (copyAt L (r + f - L.length) d).length),
      List.rotate_eq_drop_append_take (by omega : r ≤ L.length)]
  unfold copyAt
  simp only [List.append_assoc]
  have e1 : (L.take (r + f - L.length) ++ (d ++ L.drop (r + f - L.length + d.length))).drop r
      = L.drop r := by
    rw [List.drop_append_eq_append_drop, List.drop_append_eq_append_drop,
        List.drop_take, List.length_take, List.drop_drop]
    have h1 : r + f - L.length - r = 0 := by omega
    have h2 : r - (r + f - L.length) ⊓ L.length - d.length ≥ 0 := by omega
    rw [h1, List.take_zero]
    have h3 : (r + f - L.length) ⊓ L.length = r + f - L.length := by omega
    rw [h3]
    rw [List.drop_eq_nil_of_le (by omega : d.length ≤ r - (r + f - L.length))]
    simp
    congr 1
    omega
  have e2 : (L.take (r + f - L.length) ++ (d ++ L.drop (r + f - L.length + d.length))).take r
      = L.take (r + f - L.length) ++ (d ++ (L.drop (r + f - L.length + d.length)).take
          (r - (r + f - L.length) - d.length)) := by
    rw [List.take_append_eq_append_take, List.take_append_eq_append_take,
        List.take_take, List.length_take]
    have h3 : (r + f - L.length) ⊓ L.length = r + f - L.length := by omega
    rw [h3]
    have h4 : r ⊓ (r + f - L.length) = r + f - L.length := by omega
    rw [h4]
    rw [List.take_of_length_le (by omega : d.length ≤ r - (r + f - L.length))]
  rw [e1, e2]
  have hdr : (L.drop r).length = L.length - r := List.length_drop _ _
  rw [List.take_append_eq_append_take, hdr,
      List.take_of_length_le (by rw [hdr]; omega : (L.drop r).length ≤ f + d.length)]
  rw [List.take_append_eq_append_take, List.length_take]
  have h5 : (r + f - L.length) ⊓ L.length = r + f - L.length := by omega
  rw [h5]
  rw [List.take_of_length_le (by rw [List.length_take]; omega :
        (L.take (r + f - L.length)).length ≤ f + d.length - (L.length - r))]
  rw [List.take_append_eq_append_take]
  have h6 : f + d.length - (L.length - r) - (r + f - L.length) = d.length := by omega
  rw [h6, List.take_of_length_le (le_refl d.length)]
  have h7 : d.length - d.length = 0 := by omega
  rw [h7, List.take_zero]
  rw [List.take_append_eq_append_take, hdr,
      List.take_of_length_le (by rw [hdr]; omega : (L.drop r).length ≤ f)]
  rw [List.take_take]
  have h8 : (f - (L.length - r)) ⊓ r = r + f - L.length := by omega
  rw [h8]
  simp

lemma ring_write_split (L d : List Nat) (r f : Nat)
    (hrf : r + f ≤ L.length) (hwrap : L.length - (r + f) < d.length)
    (hft : f + d.length ≤ L.length) :
    ((copyAt (copyAt L (r + f) (d.take (L.length - (r + f)))) 0
        (d.drop (L.length - (r + f)))).rotate r).take (f + d.length) =
      (L.rotate r).take f ++ d := by
  have hinlen : (copyAt L (r + f) (d.take (L.length - (r + f)))).length = L.length := by
    apply copyAt_length
    rw [List.length_take]
    omega
  have hm : (d.drop (L.length - (r + f))).length = d.length - (L.length - (r + f)) := by
    rw [List.length_drop]
  have houtlen : (copyAt (copyAt L (r + f) (d.take (L.length - (r + f)))) 0
      (d.drop (L.length - (r + f)))).length = L.length := by
    rw [copyAt_length, hinlen]
    rw [hm, hinlen]
    omega
  rw [List.rotate_eq_drop_append_take (by omega : r ≤ (copyAt (copyAt L (r + f)
        (d.take (L.length - (r + f)))) 0 (d.drop (L.length - (r + f)))).length),
      List.rotate_eq_drop_append_take (by omega : r ≤ L.length)]
  unfold copyAt
  simp only [List.append_assoc, List.take_zero, List.nil_append, Nat.zero_add]
  -- the inner tail drop is empty: drop (r + f + (take.. ).length) L = []
  rw [List.length_take]
  have hes : (L.length - (r + f)) ⊓ d.length = L.length - (r + f) := by omega
  rw [hes]
  rw [List.drop_eq_nil_of_le (by omega : L.length ≤ r + f + (L.length - (r + f)))]
  simp only [List.append_nil, hm]
  have e0 : List.drop (d.length - (L.length - (r + f)))
      (List.take (r + f) L ++ List.take (L.length - (r + f)) d)
      = (List.take (r + f) L).drop (d.length - (L.length - (r + f))) ++
        List.take (L.length - (r + f)) d := by
    rw [List.drop_append_eq_append_drop, List.length_take]
    have h1 : d.length - (L.length - (r + f)) - (r + f) ⊓ L.length = 0 := by omega
    rw [h1, List.drop_zero]
  rw [e0]
  have e1 : (List.drop (L.length - (r + f)) d ++
      ((List.take (r + f) L).drop (d.length - (L.length - (r + f))) ++
        List.take (L.length - (r + f)) d)).drop r
      = (L.drop r).take f ++ List.take (L.length - (r + f)) d := by
    rw [List.drop_append_eq_append_drop, hm,
        List.drop_eq_nil_of_le (by rw [hm]; omega :
          (List.drop (L.length - (r + f)) d).length ≤ r),
        List.nil_append]
    rw [List.drop_append_eq_append_drop, List.drop_drop, List.length_drop,
        List.length_take]
    have h2 : d.length - (L.length - (r + f)) + (r - (d.length - (L.length - (r + f)))) = r := by
      omega
    rw [h2]
    have h3 : r - (d.length - (L.length - (r + f))) -
        ((r + f) ⊓ L.length - (d.length - (L.length - (r + f)))) = 0 := by omega
    rw [h3, List.drop_zero, List.drop_take]
    congr 2
    omega
  have e2 : (List.drop (L.length - (r + f)) d ++
      ((List.take (r + f) L).drop (d.length - (L.length - (r + f))) ++
        List.take (L.length - (r + f)) d)).take r
      = List.drop (L.length - (r + f)) d ++
        ((List.take (r + f) L).drop (d.length - (L.length - (r + f)))).take
          (r - (d.length - (L.length - (r + f)))) := by
    rw [List.take_append_eq_append_take, hm,
        List.take_of_length_le (by rw [hm]; omega :
          (List.drop (L.length - (r + f)) d).length ≤ r)]
    congr 1
    rw [List.take_append_eq_append_take]
    have h4 : r - (d.length - (L.length - (r + f))) -
        ((List.take (r + f) L).drop (d.length - (L.length - (r + f)))).length = 0 := by
      rw [List.length_drop, List.length_take]
      omega
    rw [h4, List.take_zero, List.append_nil]
  rw [e1, e2]
  have hP : ((L.drop r).take f).length = f := by
    rw [List.length_take, List.length_drop]; omega
  simp only [List.append_assoc]
  rw [List.take_append_eq_append_take, hP,
      List.take_of_length_le (by rw [hP]; omega : ((L.drop r).take f).length ≤ f + d.length)]
  have h5 : f + d.length - f = d.length := by omega
  rw [h5]
  rw [List.take_append_eq_append_take, List.length_take]
  have h6 : (L.length - (r + f)) ⊓ d.length = L.length - (r + f) := by omega
  rw [h6, List.take_of_length_le (by rw [List.length_take]; omega :
        (List.take (L.length - (r + f)) d).length ≤ d.length)]
  rw [List.take_append_eq_append_take, hm,
      List.take_of_length_le (by rw [hm] :
        (List.drop (L.length - (r + f)) d).length ≤ d.length - (L.length - (r + f)))]
  have h7 : d.length - (L.length - (r + f)) - (d.length - (L.length - (r + f))) = 0 := by omega
  rw [h7, List.take_zero, List.append_nil]
  rw [List.take_append_eq_append_take, List.length_drop]
  have h8 : f - (L.length - r) = 0 := by omega
  rw [h8, List.take_zero, List.append_nil]
  congr 1
  exact List.take_append_drop _ _

lemma rotate_take_drop (R : List Nat) (t f : Nat) (hf : f ≤ R.length) (htf : t ≤ f) :
    (R.rotate t).take (f - t) = (R.take f).drop t := by
  rw [List.rotate_eq_drop_append_take (by omega : t ≤ R.length)]
  rw [List.take_append_eq_append_take, List.length_drop]
  have h1 : f - t - (R.length - t) = 0 := by omega
  rw [h1, List.take_zero, List.append_nil, List.drop_take]

lemma read_out_noWrap (L : List Nat) (r t : Nat) (hr : r ≤ L.length)
    (ht : t ≤ L.length - r) :
    (L.rotate r).take t = (L.drop r).take t := by
  rw [List.rotate_eq_drop_append_take hr, List.take_append_eq_append_take,
      List.length_drop]
  have h1 : t - (L.length - r) = 0 := by omega
  rw [h1, List.take_zero, List.append_nil]

lemma read_out_wrap (L : List Nat) (r t : Nat) (hr : r ≤ L.length)
    (ht1 : L.length - r < t) (ht2 : t ≤ L.length) :
    (L.rotate r).take t = L.drop r ++ L.take (t - (L.length - r)) := by
  rw [List.rotate_eq_drop_append_take hr, List.take_append_eq_append_take,
      List.length_drop,
      List.take_of_length_le (show (L.drop r).length ≤ t by rw [List.length_drop]; omega)]
  rw [List.take_take]
  have h2 : t - (L.length - r) ≤ r := by omega
  rw [min_eq_left h2]

lemma rotate_mod_add (L : List Nat) (r t : Nat) (h : L.length = c) :
    L.rotate ((r + t) % c) = (L.rotate r).rotate t := by
  subst h
  rw [List.rotate_mod, List.rotate_rotate]


theorem writeStep_spec (bs : BS) (data : List Nat) (hinv : RingInv bs)
    (hav : bs.filled < bs.capacity) :
    contents (writeStep bs data).1 =
      contents bs ++ data.take (min data.length (bs.capacity - bs.filled)) ∧
    (writeStep bs data).2 = data.drop (min data.length (bs.capacity - bs.filled)) ∧
    RingInv (writeStep bs data).1 ∧
    (writeStep bs data).1.filled = bs.filled + min data.length (bs.capacity - bs.filled) ∧
    (writeStep bs data).1.capacity = bs.capacity ∧
    (writeStep bs data).1.readPos = bs.readPos := by
  obtain ⟨hlen, hf, hr, hw⟩ := hinv
  have htd : (data.take (min data.length (bs.capacity - bs.filled))).length
      = min data.length (bs.capacity - bs.filled) := by
    rw [List.length_take]; omega
  have hftc : bs.filled + min data.length (bs.capacity - bs.filled) ≤ bs.capacity := by
    omega
  refine ⟨?_, rfl, ⟨?_, ?_, ?_, ?_⟩, rfl, rfl, rfl⟩
  · -- contents
    show ((writeStep bs data).1.buf.rotate bs.readPos).take
        (bs.filled + min data.length (bs.capacity - bs.filled)) = _
    simp only [writeStep, contents]
    split_ifs with hsp
    · -- single copy
      rcases Nat.lt_or_ge (bs.readPos + bs.filled) bs.capacity with hA | hB
      · have hwval : bs.writePos = bs.readPos + bs.filled := by
          rw [hw, Nat.mod_eq_of_lt (by omega)]
        rw [hwval]
        have H := ring_write_noWrap bs.buf
          (data.take (min data.length (bs.capacity - bs.filled))) bs.readPos bs.filled
          (by rw [htd]; omega)
        rw [htd] at H
        exact H
      · have hwval : bs.writePos = bs.readPos + bs.filled - bs.capacity := by
          rw [hw, Nat.mod_eq_sub_mod (by omega), Nat.mod_eq_of_lt (by omega)]
        rw [hwval]
        have H := ring_write_wrapStart bs.buf
          (data.take (min data.length (bs.capacity - bs.filled))) bs.readPos bs.filled
          (by omega) (by rw [htd]; omega) (by omega)
        rw [htd, hlen] at H
        exact H
    · -- split copy
      have hA : bs.readPos + bs.filled < bs.capacity := by
        rcases Nat.lt_or_ge (bs.readPos + bs.filled) bs.capacity with h | h
        · exact h
        · exfalso
          have hwval : bs.writePos = bs.readPos + bs.filled - bs.capacity := by
            rw [hw, Nat.mod_eq_sub_mod (by omega), Nat.mod_eq_of_lt (by omega)]
          omega
      have hwval : bs.writePos = bs.readPos + bs.filled := by
        rw [hw, Nat.mod_eq_of_lt (by omega)]
      rw [hwval]
      have hd1 : data.take (bs.capacity - (bs.readPos + bs.filled))
          = (data.take (min data.length (bs.capacity - bs.filled))).take
              (bs.capacity - (bs.readPos + bs.filled)) := by
        rw [List.take_take]
        congr 1
        omega
      have H := ring_write_split bs.buf
        (data.take (min data.length (bs.capacity - bs.filled))) bs.readPos bs.filled
        (by omega) (by rw [htd]; omega) (by rw [htd]; omega)
      rw [htd, hlen, ← hd1] at H
      exact H
  · -- buf length
    show (writeStep bs data).1.buf.length = bs.capacity
    simp only [writeStep]
    split_ifs with hsp
    · rw [copyAt_length]
      · exact hlen
      · rw [htd, hlen]
        have hwc : bs.writePos < bs.capacity := by
          rw [hw]; exact Nat.mod_lt _ (by omega)
        omega
    · have hwc : bs.writePos < bs.capacity := by
        rw [hw]; exact Nat.mod_lt _ (by omega)
      have hinner : (copyAt bs.buf bs.writePos (data.take (bs.capacity - bs.writePos))).length
          = bs.capacity := by
        rw [copyAt_length]
        · exact hlen
        · rw [List.length_take, hlen]
          omega
      rw [copyAt_length]
      · exact hinner
      · rw [List.length_drop, htd, hinner]
        omega
  · show bs.filled + min data.length (bs.capacity - bs.filled) ≤ bs.capacity
    omega
  · show bs.readPos < bs.capacity
    omega
  · -- writePos relation
    show (writeStep bs data).1.writePos =
      (bs.readPos + (bs.filled + min data.length (bs.capacity - bs.filled))) % bs.capacity
    simp only [writeStep]
    split_ifs with hsp
    · rw [hw, Nat.mod_add_mod]
      congr 1
      omega
    · have hA : bs.readPos + bs.filled < bs.capacity := by
        rcases Nat.lt_or_ge (bs.readPos + bs.filled) bs.capacity with h | h
        · exact h
        · exfalso
          have hwval : bs.writePos = bs.readPos + bs.filled - bs.capacity := by
            rw [hw, Nat.mod_eq_sub_mod (by omega), Nat.mod_eq_of_lt (by omega)]
          omega
      have hwval : bs.writePos = bs.readPos + bs.filled := by
        rw [hw, Nat.mod_eq_of_lt (by omega)]
      have hmod : (bs.readPos + (bs.filled + min data.length (bs.capacity - bs.filled)))
          % bs.capacity
          = bs.readPos + (bs.filled + min data.length (bs.capacity - bs.filled))
            - bs.capacity := by
        rw [Nat.mod_eq_sub_mod (by omega), Nat.mod_eq_of_lt (by omega)]
      rw [hmod, hwval]
      omega

theorem readData_spec (bs : BS) (n : Nat) (hinv : RingInv bs) :
    (readData bs n).2 = (contents bs).take (min n bs.filled) ∧
    contents (readData bs n).1 = (contents bs).drop (min n bs.filled) ∧
    RingInv (readData bs n).1 ∧
    (readData bs n).1.filled = bs.filled - min n bs.filled ∧
    (readData bs n).1.capacity = bs.capacity ∧
    (readData bs n).1.buf = bs.buf := by
  obtain ⟨hlen, hf, hr, hw⟩ := hinv
  have hrdpos : ((bs.readPos + min n bs.filled) % bs.capacity) =
      if min n bs.filled ≤ bs.capacity - bs.readPos
      then (bs.readPos + min n bs.filled) % bs.capacity
      else min n bs.filled - (bs.capacity - bs.readPos) := by
    split_ifs with h
    · rfl
    · rw [Nat.mod_eq_sub_mod (by omega), Nat.mod_eq_of_lt (by omega)]
      omega
  refine ⟨?_, ?_, ⟨?_, ?_, ?_, ?_⟩, rfl, rfl, rfl⟩
  · -- the bytes returned are the head of the FIFO contents
    show (readData bs n).2 = ((bs.buf.rotate bs.readPos).take bs.filled).take (min n bs.filled)
    rw [List.take_take, min_eq_left (by omega : min n bs.filled ≤ bs.filled)]
    simp only [readData]
    split_ifs with hsp
    · rw [read_out_noWrap bs.buf bs.readPos (min n bs.filled) (by omega) (by omega)]
    · rw [read_out_wrap bs.buf bs.readPos (min n bs.filled) (by omega) (by omega) (by omega)]
      rw [hlen]
  · -- the remaining contents are the tail
    show ((readData bs n).1.buf.rotate (readData bs n).1.readPos).take
        (bs.filled - min n bs.filled) = _
    simp only [readData, contents]
    rw [← hrdpos]
    rw [rotate_mod_add bs.buf bs.readPos (min n bs.filled) hlen]
    rw [rotate_take_drop _ _ _ (by rw [List.length_rotate]; omega) (by omega)]
  · show (readData bs n).1.buf.length = bs.capacity
    simp only [readData]
    exact hlen
  · show bs.filled - min n bs.filled ≤ bs.capacity
    omega
  · -- new read cursor in range
    show (readData bs n).1.readPos < bs.capacity
    simp only [readData]
    rw [← hrdpos]
    exact Nat.mod_lt _ (by omega)
  · -- write cursor still filled bytes ahead
    show (readData bs n).1.writePos =
      ((readData bs n).1.readPos + (bs.filled - min n bs.filled)) % bs.capacity
    simp only [readData]
    rw [← hrdpos, hw, Nat.mod_add_mod]
    congr 1
    omega

lemma afterRead_notWriting (s : Sys) (e : Option ReadErr) :
    isWritingPC (afterRead s e).prod.pc = false := by
  cases e with
  | none => rfl
  | some er => cases er <;> rfl

lemma outputBytes_append (xs ys : List ReadResult) :
    outputBytes (xs ++ ys) = outputBytes xs ++ outputBytes ys := by
  induction xs with
  | nil => rfl
  | cons x rest ih =>
      cases x <;> simp [outputBytes, ih]

lemma contents_updState (bs : BS) (st : BufferState) :
    contents (updState bs st) = contents bs := by
  unfold updState
  split <;> rfl

lemma RingInv_updState (bs : BS) (st : BufferState) (h : RingInv bs) :
    RingInv (updState bs st) := by
  unfold updState
  split
  · exact h
  · exact h

lemma step_SysInv (s : Sys) (a : Act) (h : SysInv s) : SysInv (step s a) := by
  obtain ⟨hring, hpend, heq⟩ := h
  by_cases hpan : s.prod.pc = ProdPC.panicked
  · rw [step.eq_def, if_pos hpan]
    exact ⟨hring, hpend, heq⟩
  rw [step.eq_def, if_neg hpan]
  cases a with
  | prodStep =>
      show SysInv (stepProd s)
      rcases hpc : s.prod.pc with _ | _ | e | i | _ | _ | er | _ | _ | _
      · -- top
        simp only [stepProd, hpc]
        split_ifs with hstop
        · exact ⟨hring, fun _ => hpend (by rw [hpc]; rfl), heq⟩
        · exact ⟨hring, fun _ => hpend (by rw [hpc]; rfl), heq⟩
      · -- reading
        simp only [stepProd, hpc]
        exact ⟨hring, hpend, heq⟩
      · -- writing e
        simp only [stepProd, hpc]
        split_ifs with hpd hav
        · refine ⟨?_, ?_, ?_⟩
          · show RingInv (afterRead { s with prod := { s.prod with
              backoff := s.cfg.initialBackoff, retries := 0 } } e).bs
            exact hring
          · intro hfalse
            exact hpd
          · show outputBytes s.outputs ++ contents s.bs ++ s.prod.pendingData = s.written
            exact heq
        · exact ⟨hring, hpend, heq⟩
        · have hlt : s.bs.filled < s.bs.capacity := by
            obtain ⟨h1, h2, h3, h4⟩ := hring
            omega
          obtain ⟨hcont, hrest, hring', hfil, hcap, hrp⟩ :=
            writeStep_spec s.bs s.prod.pendingData hring hlt
          refine ⟨hring', ?_, ?_⟩
          · intro hfalse
            simp [isWritingPC] at hfalse
          · show outputBytes s.outputs ++ contents (writeStep s.bs s.prod.pendingData).1 ++
              (writeStep s.bs s.prod.pendingData).2 = s.written
            rw [hcont, hrest]
            rw [← heq]
            simp [List.append_assoc]
      · -- errNet i
        simp only [stepProd, hpc]
        split_ifs with hmax
        · exact ⟨hring, fun _ => hpend (by rw [hpc]; rfl), heq⟩
        · refine ⟨RingInv_updState _ _ hring, fun _ => hpend (by rw [hpc]; rfl), ?_⟩
          show outputBytes s.outputs ++ contents (updState s.bs BufferState.underrun) ++
            s.prod.pendingData = s.written
          rw [contents_updState]
          exact heq
      · -- sleeping
        simp only [stepProd, hpc]
        split_ifs with hstop
        · exact ⟨hring, fun _ => hpend (by rw [hpc]; rfl), heq⟩
        · exact ⟨hring, fun _ => hpend (by rw [hpc]; rfl), heq⟩
      · -- reconnecting
        simp only [stepProd, hpc]
        exact ⟨hring, hpend, heq⟩
      · -- fatal er
        simp only [stepProd, hpc]
        exact ⟨hring, fun _ => hpend (by rw [hpc]; rfl), heq⟩
      · -- exiting
        simp only [stepProd, hpc]
        exact ⟨hring, fun _ => hpend (by rw [hpc]; rfl), heq⟩
      · -- exited
        simp only [stepProd, hpc]
        exact ⟨hring, hpend, heq⟩
      · exact absurd hpc hpan
  | netRead d e =>
      show SysInv (stepNetRead s d e)
      rcases hpc : s.prod.pc with _ | _ | er | i | _ | _ | er | _ | _ | _
      · simp only [stepNetRead, hpc]
        exact ⟨hring, hpend, heq⟩
      · -- reading
        have hpd : s.prod.pendingData = [] := hpend (by rw [hpc]; rfl)
        simp only [stepNetRead, hpc]
        split_ifs with hresp hd
        · exact ⟨hring, fun _ => hpd, heq⟩
        · exact ⟨hring, fun _ => hpd, heq⟩
        · refine ⟨hring, ?_, ?_⟩
          · intro hfalse
            simp [isWritingPC] at hfalse
          · show outputBytes s.outputs ++ contents s.bs ++ d = s.written ++ d
            rw [hpd, List.append_nil] at heq
            rw [heq]
      all_goals simp only [stepNetRead, hpc]
      all_goals exact ⟨hring, hpend, heq⟩
  | sleepDone =>
      show SysInv (stepSleepDone s)
      rcases hpc : s.prod.pc with _ | _ | er | i | _ | _ | er | _ | _ | _
      · simp only [stepSleepDone, hpc]
        exact ⟨hring, hpend, heq⟩
      · simp only [stepSleepDone, hpc]
        exact ⟨hring, hpend, heq⟩
      · simp only [stepSleepDone, hpc]
        exact ⟨hring, hpend, heq⟩
      · simp only [stepSleepDone, hpc]
        exact ⟨hring, hpend, heq⟩
      · -- sleeping
        simp only [stepSleepDone, hpc]
        split_ifs with hstop
        · exact ⟨hring, fun _ => hpend (by rw [hpc]; rfl), heq⟩
        · exact ⟨hring, fun _ => hpend (by rw [hpc]; rfl), heq⟩
      all_goals simp only [stepSleepDone, hpc]
      all_goals exact ⟨hring, hpend, heq⟩
  | connTry ok =>
      show SysInv (stepConnTry s ok)
      rcases hpc : s.prod.pc with _ | _ | er | i | _ | _ | er | _ | _ | _
      · simp only [stepConnTry, hpc]
        exact ⟨hring, hpend, heq⟩
      · simp only [stepConnTry, hpc]
        exact ⟨hring, hpend, heq⟩
      · simp only [stepConnTry, hpc]
        exact ⟨hring, hpend, heq⟩
      · simp only [stepConnTry, hpc]
        exact ⟨hring, hpend, heq⟩
      · simp only [stepConnTry, hpc]
        exact ⟨hring, hpend, heq⟩
      · -- reconnecting
        simp only [stepConnTry, hpc]
        split_ifs with hok hfil
        · exact ⟨hring, fun _ => hpend (by rw [hpc]; rfl), heq⟩
        · exact ⟨hring, fun _ => hpend (by rw [hpc]; rfl), heq⟩
        · exact ⟨hring, fun _ => hpend (by rw [hpc]; rfl), heq⟩
      all_goals simp only [stepConnTry, hpc]
      all_goals exact ⟨hring, hpend, heq⟩
  | consRead n =>
      show SysInv (stepConsRead s n)
      unfold stepConsRead
      split_ifs with hcl hgate hfil hur
      · rcases hLE : s.bs.lastError with _ | e
        · simp only [hLE]
          refine ⟨hring, hpend, ?_⟩
          show outputBytes (s.outputs ++ [ReadResult.eofSig]) ++ contents s.bs ++
            s.prod.pendingData = s.written
          rw [outputBytes_append]
          simpa [outputBytes] using heq
        · simp only [hLE]
          refine ⟨hring, hpend, ?_⟩
          show outputBytes (s.outputs ++ [ReadResult.errSig e]) ++ contents s.bs ++
            s.prod.pendingData = s.written
          rw [outputBytes_append]
          simpa [outputBytes] using heq
      · exact ⟨hring, hpend, heq⟩
      · obtain ⟨hout, hcont, hring', hfil2, hcap, hbuf⟩ := readData_spec s.bs n hring
        refine ⟨hring', hpend, ?_⟩
        show outputBytes (s.outputs ++ [ReadResult.bytes (readData s.bs n).2]) ++
          contents (readData s.bs n).1 ++ s.prod.pendingData = s.written
        rw [outputBytes_append, hout, hcont]
        rw [← heq]
        simp [outputBytes, List.append_assoc]
      · exact ⟨hring, hpend, heq⟩
      · exact ⟨hring, hpend, heq⟩
  | close =>
      show SysInv (stepClose s)
      unfold stepClose
      split_ifs with hcl
      · exact ⟨hring, hpend, heq⟩
      · exact ⟨hring, hpend, heq⟩

lemma updState_state (bs : BS) (st : BufferState) : (updState bs st).state = st := by
  unfold updState
  split_ifs with h
  · exact h
  · rfl

lemma updState_closed (bs : BS) (st : BufferState) : (updState bs st).closed = bs.closed := by
  unfold updState
  split_ifs <;> rfl

lemma codeEdgeB_closed (a : BufferState) : codeEdgeB a BufferState.closed = true := by
  cases a <;> rfl

lemma writeStep_state (bs : BS) (d : List Nat) :
    (writeStep bs d).1.state = BufferState.healthy ∨ (writeStep bs d).1.state = bs.state := by
  rw [show (writeStep bs d).1.state =
      (if bs.initialFill = true ∧
          bs.highWatermark ≤ bs.filled + min d.length (bs.capacity - bs.filled) then
        BufferState.healthy
      else if bs.initialFill = false ∧ bs.state = BufferState.underrun ∧
          bs.lowWatermark ≤ bs.filled + min d.length (bs.capacity - bs.filled) then
        BufferState.healthy
      else bs.state) from rfl]
  split_ifs with h1 h2
  · exact Or.inl rfl
  · exact Or.inl rfl
  · exact Or.inr rfl

lemma state_not_terminal (s : Sys) (h : InvPS s)
    (hpc : ¬(s.prod.pc = ProdPC.exiting ∨ s.prod.pc = ProdPC.exited ∨
      s.prod.pc = ProdPC.panicked)) :
    s.bs.state = BufferState.buffering ∨ s.bs.state = BufferState.healthy ∨
    s.bs.state = BufferState.underrun := by
  obtain ⟨h1, h2, h3, h4, h5⟩ := h
  rcases hst : s.bs.state
  · exact Or.inl rfl
  · exact Or.inr (Or.inl rfl)
  · exact Or.inr (Or.inr rfl)
  · exact absurd (Or.inl (h2 hst)) hpc
  · rcases h3.mp hst with hh | hh
    · exact absurd (Or.inr (Or.inl hh)) hpc
    · exact absurd (Or.inr (Or.inr hh)) hpc

lemma InvPS_retarget (s s' : Sys) (h : InvPS s)
    (hbs : s'.bs = s.bs) (hstats : s'.statsClosed = s.statsClosed)
    (hold : ¬(s.prod.pc = ProdPC.exiting ∨ s.prod.pc = ProdPC.exited ∨
      s.prod.pc = ProdPC.panicked))
    (hnew : ¬(s'.prod.pc = ProdPC.sleeping ∨ s'.prod.pc = ProdPC.reconnecting ∨
      s'.prod.pc = ProdPC.exited ∨ s'.prod.pc = ProdPC.panicked)) :
    InvPS s' := by
  obtain ⟨h1, h2, h3, h4, h5⟩ := h
  push_neg at hold hnew
  have hstE : s.bs.state ≠ BufferState.error := by
    intro hE
    exact hold.1 (h2 hE)
  have hstC : s.bs.state ≠ BufferState.closed := by
    intro hC
    rcases h3.mp hC with hh | hh
    · exact hold.2.1 hh
    · exact hold.2.2 hh
  refine ⟨?_, ?_, ?_, ?_, ?_⟩
  · intro hpcs
    rcases hpcs with hh | hh
    · exact absurd hh hnew.1
    · exact absurd hh hnew.2.1
  · intro hE
    rw [hbs] at hE
    exact absurd hE hstE
  · constructor
    · intro hC
      rw [hbs] at hC
      exact absurd hC hstC
    · intro hpcs
      rcases hpcs with hh | hh
      · exact absurd hh hnew.2.2.1
      · exact absurd hh hnew.2.2.2
  · intro hC
    rw [hbs] at hC
    exact absurd hC hstC
  · have hn1 : ¬(s.prod.pc = ProdPC.exited ∨ s.prod.pc = ProdPC.panicked) := by
      rintro (hh | hh)
      · exact hold.2.1 hh
      · exact hold.2.2 hh
    have hn2 : ¬(s'.prod.pc = ProdPC.exited ∨ s'.prod.pc = ProdPC.panicked) := by
      rintro (hh | hh)
      · exact hnew.2.2.1 hh
      · exact hnew.2.2.2 hh
    rw [hstats, h5, if_neg hn1, if_neg hn2]

lemma step_InvPS (s : Sys) (a : Act) (h : InvPS s) :
    InvPS (step s a) ∧
    ((step s a).bs.state = s.bs.state ∨ codeEdgeB s.bs.state (step s a).bs.state = true) := by
  by_cases hpan : s.prod.pc = ProdPC.panicked
  · rw [step.eq_def, if_pos hpan]
    exact ⟨h, Or.inl rfl⟩
  rw [step.eq_def, if_neg hpan]
  obtain ⟨h1, h2, h3, h4, h5⟩ := h
  cases a with
  | prodStep =>
      show InvPS (stepProd s) ∧ _
      rcases hpc : s.prod.pc with _ | _ | e | i | _ | _ | er | _ | _ | _
      · -- top
        simp only [stepProd, hpc]
        split_ifs with hstop
        · exact ⟨InvPS_retarget s _ ⟨h1, h2, h3, h4, h5⟩ rfl rfl
            (by rw [hpc]; simp) (by simp), Or.inl rfl⟩
        · exact ⟨InvPS_retarget s _ ⟨h1, h2, h3, h4, h5⟩ rfl rfl
            (by rw [hpc]; simp) (by simp), Or.inl rfl⟩
      · -- reading
        simp only [stepProd, hpc]
        exact ⟨⟨h1, h2, h3, h4, h5⟩, by first | exact Or.inl rfl | simp⟩
      · -- writing e
        simp only [stepProd, hpc]
        split_ifs with hpd hav
        · -- write finished; handle the stored read error
          rcases e with _ | er
          · exact ⟨InvPS_retarget s _ ⟨h1, h2, h3, h4, h5⟩ rfl rfl
              (by rw [hpc]; simp) (by simp [afterRead]), Or.inl rfl⟩
          · rcases er with _ | i
            · exact ⟨InvPS_retarget s _ ⟨h1, h2, h3, h4, h5⟩ rfl rfl
                (by rw [hpc]; simp) (by simp [afterRead]), Or.inl rfl⟩
            · exact ⟨InvPS_retarget s _ ⟨h1, h2, h3, h4, h5⟩ rfl rfl
                (by rw [hpc]; simp) (by simp [afterRead]), Or.inl rfl⟩
        · exact ⟨⟨h1, h2, h3, h4, h5⟩, by first | exact Or.inl rfl | simp⟩
        · -- a chunk is copied into the ring
          have hBHU := state_not_terminal s ⟨h1, h2, h3, h4, h5⟩ (by rw [hpc]; simp)
          refine ⟨⟨?_, ?_, ?_, ?_, ?_⟩, ?_⟩
          · intro hpcs
            rcases hpcs with hh | hh <;> simp [hpc] at hh
          · show (writeStep s.bs s.prod.pendingData).1.state = BufferState.error →
              ProdPC.writing e = ProdPC.exiting
            intro hE
            exfalso
            rcases writeStep_state s.bs s.prod.pendingData with hh | hh
            · rw [hh] at hE
              cases hE
            · rw [hh] at hE
              rcases hBHU with h9 | h9 | h9 <;> rw [h9] at hE <;> cases hE
          · constructor
            · show (writeStep s.bs s.prod.pendingData).1.state = BufferState.closed → _
              intro hC
              exfalso
              rcases writeStep_state s.bs s.prod.pendingData with hh | hh
              · rw [hh] at hC
                cases hC
              · rw [hh] at hC
                rcases hBHU with h9 | h9 | h9 <;> rw [h9] at hC <;> cases hC
            · intro hpcs
              exfalso
              rcases hpcs with hh | hh <;> simp [hpc] at hh
          · show (writeStep s.bs s.prod.pendingData).1.state = BufferState.closed → _
            intro hC
            exfalso
            rcases writeStep_state s.bs s.prod.pendingData with hh | hh
            · rw [hh] at hC
              cases hC
            · rw [hh] at hC
              rcases hBHU with h9 | h9 | h9 <;> rw [h9] at hC <;> cases hC
          · show s.statsClosed = if ProdPC.writing e = ProdPC.exited ∨
                ProdPC.writing e = ProdPC.panicked then 1 else 0
            rw [if_neg (by simp), h5, if_neg (by rw [hpc]; simp)]
          · show (writeStep s.bs s.prod.pendingData).1.state = s.bs.state ∨
              codeEdgeB s.bs.state (writeStep s.bs s.prod.pendingData).1.state = true
            rcases writeStep_state s.bs s.prod.pendingData with hh | hh
            · rw [hh]
              rcases hBHU with h9 | h9 | h9 <;> rw [h9]
              · exact Or.inr rfl
              · exact Or.inl rfl
              · exact Or.inr rfl
            · exact Or.inl hh
      · -- errNet i
        simp only [stepProd, hpc]
        split_ifs with hmax
        · exact ⟨InvPS_retarget s _ ⟨h1, h2, h3, h4, h5⟩ rfl rfl
            (by rw [hpc]; simp) (by simp), Or.inl rfl⟩
        · -- mark Underrun, go to sleep
          have hBHU := state_not_terminal s ⟨h1, h2, h3, h4, h5⟩ (by rw [hpc]; simp)
          refine ⟨⟨?_, ?_, ?_, ?_, ?_⟩, ?_⟩
          · intro hpcs
            exact updState_state s.bs BufferState.underrun
          · show (updState s.bs BufferState.underrun).state = BufferState.error → _
            intro hE
            rw [updState_state] at hE
            cases hE
          · constructor
            · show (updState s.bs BufferState.underrun).state = BufferState.closed → _
              intro hC
              rw [updState_state] at hC
              cases hC
            · intro hpcs
              rcases hpcs with hh | hh <;> cases hh
          · show (updState s.bs BufferState.underrun).state = BufferState.closed → _
            intro hC
            rw [updState_state] at hC
            cases hC
          · show s.statsClosed = if ProdPC.sleeping = ProdPC.exited ∨
                ProdPC.sleeping = ProdPC.panicked then 1 else 0
            rw [if_neg (by simp), h5, if_neg (by rw [hpc]; simp)]
          · show (updState s.bs BufferState.underrun).state = s.bs.state ∨
              codeEdgeB s.bs.state (updState s.bs BufferState.underrun).state = true
            rw [updState_state]
            rcases hBHU with h9 | h9 | h9 <;> rw [h9]
            · exact Or.inr rfl
            · exact Or.inr rfl
            · exact Or.inl rfl
      · -- sleeping
        simp only [stepProd, hpc]
        split_ifs with hstop
        · exact ⟨InvPS_retarget s _ ⟨h1, h2, h3, h4, h5⟩ rfl rfl
            (by rw [hpc]; simp) (by simp), Or.inl rfl⟩
        · exact ⟨⟨h1, h2, h3, h4, h5⟩, by first | exact Or.inl rfl | simp⟩
      · -- reconnecting (no prodStep action here)
        simp only [stepProd, hpc]
        exact ⟨⟨h1, h2, h3, h4, h5⟩, by first | exact Or.inl rfl | simp⟩
      · -- fatal er: setError runs
        simp only [stepProd, hpc]
        have hBHU := state_not_terminal s ⟨h1, h2, h3, h4, h5⟩ (by rw [hpc]; simp)
        refine ⟨⟨?_, ?_, ?_, ?_, ?_⟩, ?_⟩
        · intro hpcs
          rcases hpcs with hh | hh <;> cases hh
        · intro hE
          rfl
        · constructor
          · show (setErrorB s.bs er).state = BufferState.closed → _
            intro hC
            cases hC
          · intro hpcs
            rcases hpcs with hh | hh <;> cases hh
        · show (setErrorB s.bs er).state = BufferState.closed → _
          intro hC
          cases hC
        · show s.statsClosed = if ProdPC.exiting = ProdPC.exited ∨
              ProdPC.exiting = ProdPC.panicked then 1 else 0
          rw [if_neg (by simp), h5, if_neg (by rw [hpc]; simp)]
        · show (setErrorB s.bs er).state = s.bs.state ∨
            codeEdgeB s.bs.state (setErrorB s.bs er).state = true
          right
          show codeEdgeB s.bs.state BufferState.error = true
          rcases hBHU with h9 | h9 | h9 <;> rw [h9] <;> rfl
      · -- exiting: deferred cleanup runs
        simp only [stepProd, hpc]
        refine ⟨⟨?_, ?_, ?_, ?_, ?_⟩, ?_⟩
        · intro hpcs
          rcases hpcs with hh | hh <;> cases hh
        · intro hE
          cases hE
        · exact ⟨fun _ => Or.inl rfl, fun _ => rfl⟩
        · intro _
          rfl
        · show s.statsClosed + 1 = if ProdPC.exited = ProdPC.exited ∨
              ProdPC.exited = ProdPC.panicked then 1 else 0
          rw [if_pos (Or.inl rfl), h5, if_neg (by rw [hpc]; simp)]
        · exact Or.inr (codeEdgeB_closed s.bs.state)
      · -- exited
        simp only [stepProd, hpc]
        exact ⟨⟨h1, h2, h3, h4, h5⟩, by first | exact Or.inl rfl | simp⟩
      · exact absurd hpc hpan
  | netRead d e =>
      show InvPS (stepNetRead s d e) ∧ _
      rcases hpc : s.prod.pc with _ | _ | er | i | _ | _ | er | _ | _ | _
      · simp only [stepNetRead, hpc]
        exact ⟨⟨h1, h2, h3, h4, h5⟩, by first | exact Or.inl rfl | simp⟩
      · -- reading
        simp only [stepNetRead, hpc]
        split_ifs with hresp hd
        · -- resp is nil: panic; deferred cleanup runs while unwinding
          refine ⟨⟨?_, ?_, ?_, ?_, ?_⟩, ?_⟩
          · intro hpcs
            rcases hpcs with hh | hh <;> cases hh
          · intro hE
            cases hE
          · exact ⟨fun _ => Or.inr rfl, fun _ => rfl⟩
          · intro _
            rfl
          · show s.statsClosed + 1 = if ProdPC.panicked = ProdPC.exited ∨
                ProdPC.panicked = ProdPC.panicked then 1 else 0
            rw [if_pos (Or.inr rfl), h5, if_neg (by rw [hpc]; simp)]
          · exact Or.inr (codeEdgeB_closed s.bs.state)
        · rcases e with _ | er2
          · exact ⟨InvPS_retarget s _ ⟨h1, h2, h3, h4, h5⟩ rfl rfl
              (by rw [hpc]; simp) (by simp [afterRead]), Or.inl rfl⟩
          · rcases er2 with _ | i
            · exact ⟨InvPS_retarget s _ ⟨h1, h2, h3, h4, h5⟩ rfl rfl
                (by rw [hpc]; simp) (by simp [afterRead]), Or.inl rfl⟩
            · exact ⟨InvPS_retarget s _ ⟨h1, h2, h3, h4, h5⟩ rfl rfl
                (by rw [hpc]; simp) (by simp [afterRead]), Or.inl rfl⟩
        · exact ⟨InvPS_retarget s _ ⟨h1, h2, h3, h4, h5⟩ rfl rfl
            (by rw [hpc]; simp) (by simp), Or.inl rfl⟩
      all_goals simp only [stepNetRead, hpc]
      all_goals exact ⟨⟨h1, h2, h3, h4, h5⟩, by first | exact Or.inl rfl | simp⟩
  | sleepDone =>
      show InvPS (stepSleepDone s) ∧ _
      rcases hpc : s.prod.pc with _ | _ | er | i | _ | _ | er | _ | _ | _
      · simp only [stepSleepDone, hpc]
        exact ⟨⟨h1, h2, h3, h4, h5⟩, by first | exact Or.inl rfl | simp⟩
      · simp only [stepSleepDone, hpc]
        exact ⟨⟨h1, h2, h3, h4, h5⟩, by first | exact Or.inl rfl | simp⟩
      · simp only [stepSleepDone, hpc]
        exact ⟨⟨h1, h2, h3, h4, h5⟩, by first | exact Or.inl rfl | simp⟩
      · simp only [stepSleepDone, hpc]
        exact ⟨⟨h1, h2, h3, h4, h5⟩, by first | exact Or.inl rfl | simp⟩
      · -- sleeping
        simp only [stepSleepDone, hpc]
        split_ifs with hstop
        · exact ⟨InvPS_retarget s _ ⟨h1, h2, h3, h4, h5⟩ rfl rfl
            (by rw [hpc]; simp) (by simp), Or.inl rfl⟩
        · -- timer fired: reconnecting
          refine ⟨⟨?_, ?_, ?_, ?_, ?_⟩, Or.inl rfl⟩
          · intro _
            exact h1 (Or.inl hpc)
          · intro hE
            have := h2 hE
            rw [hpc] at this
            cases this
          · constructor
            · intro hC
              exfalso
              rcases h3.mp hC with hh | hh <;> rw [hpc] at hh <;> cases hh
            · intro hpcs
              rcases hpcs with hh | hh <;> cases hh
          · exact h4
          · show s.statsClosed = if ProdPC.reconnecting = ProdPC.exited ∨
                ProdPC.reconnecting = ProdPC.panicked then 1 else 0
            rw [if_neg (by simp), h5, if_neg (by rw [hpc]; simp)]
      all_goals simp only [stepSleepDone, hpc]
      all_goals exact ⟨⟨h1, h2, h3, h4, h5⟩, by first | exact Or.inl rfl | simp⟩
  | connTry ok =>
      show InvPS (stepConnTry s ok) ∧ _
      rcases hpc : s.prod.pc with _ | _ | er | i | _ | _ | er | _ | _ | _
      · simp only [stepConnTry, hpc]
        exact ⟨⟨h1, h2, h3, h4, h5⟩, by first | exact Or.inl rfl | simp⟩
      · simp only [stepConnTry, hpc]
        exact ⟨⟨h1, h2, h3, h4, h5⟩, by first | exact Or.inl rfl | simp⟩
      · simp only [stepConnTry, hpc]
        exact ⟨⟨h1, h2, h3, h4, h5⟩, by first | exact Or.inl rfl | simp⟩
      · simp only [stepConnTry, hpc]
        exact ⟨⟨h1, h2, h3, h4, h5⟩, by first | exact Or.inl rfl | simp⟩
      · simp only [stepConnTry, hpc]
        exact ⟨⟨h1, h2, h3, h4, h5⟩, by first | exact Or.inl rfl | simp⟩
      · -- reconnecting
        have hstU : s.bs.state = BufferState.underrun := h1 (Or.inr hpc)
        simp only [stepConnTry, hpc]
        split_ifs with hok hfil
        · -- reconnect succeeded, filled at or above the low watermark
          refine ⟨⟨?_, ?_, ?_, ?_, ?_⟩, ?_⟩
          · intro hpcs
            rcases hpcs with hh | hh <;> cases hh
          · intro hE
            cases hE
          · constructor
            · intro hC
              cases hC
            · intro hpcs
              rcases hpcs with hh | hh <;> cases hh
          · intro hC
            cases hC
          · show s.statsClosed = if ProdPC.top = ProdPC.exited ∨
                ProdPC.top = ProdPC.panicked then 1 else 0
            rw [if_neg (by simp), h5, if_neg (by rw [hpc]; simp)]
          · right
            show codeEdgeB s.bs.state BufferState.healthy = true
            rw [hstU]
            rfl
        · -- reconnect succeeded, filled below the low watermark
          refine ⟨⟨?_, ?_, ?_, ?_, ?_⟩, ?_⟩
          · intro hpcs
            rcases hpcs with hh | hh <;> cases hh
          · intro hE
            cases hE
          · constructor
            · intro hC
              cases hC
            · intro hpcs
              rcases hpcs with hh | hh <;> cases hh
          · intro hC
            cases hC
          · show s.statsClosed = if ProdPC.top = ProdPC.exited ∨
                ProdPC.top = ProdPC.panicked then 1 else 0
            rw [if_neg (by simp), h5, if_neg (by rw [hpc]; simp)]
          · right
            show codeEdgeB s.bs.state BufferState.buffering = true
            rw [hstU]
            rfl
        · exact ⟨InvPS_retarget s _ ⟨h1, h2, h3, h4, h5⟩ rfl rfl
            (by rw [hpc]; simp) (by simp), Or.inl rfl⟩
      all_goals simp only [stepConnTry, hpc]
      all_goals exact ⟨⟨h1, h2, h3, h4, h5⟩, by first | exact Or.inl rfl | simp⟩
  | consRead n =>
      show InvPS (stepConsRead s n) ∧ _
      unfold stepConsRead
      split_ifs with hcl hgate hfil hur
      · rcases hLE : s.bs.lastError with _ | e2
        all_goals simp only [hLE]
        all_goals exact ⟨⟨h1, h2, h3, h4, h5⟩, by first | exact Or.inl rfl | simp⟩
      · exact ⟨⟨h1, h2, h3, h4, h5⟩, by first | exact Or.inl rfl | simp⟩
      · exact ⟨⟨h1, h2, h3, h4, h5⟩, by first | exact Or.inl rfl | simp⟩
      · -- empty buffer observed: mark Underrun
        refine ⟨⟨?_, ?_, ?_, ?_, ?_⟩, ?_⟩
        · intro hpcs
          exact rfl
        · intro hE
          cases hE
        · constructor
          · intro hC
            cases hC
          · intro hpcs
            exfalso
            have := h3.mpr hpcs
            exact hcl (h4 this)
        · intro hC
          cases hC
        · exact h5
        · rcases hst : s.bs.state
          · exact absurd hst hur.2
          · exact Or.inr rfl
          · exact absurd hst hur.1
          · exact Or.inr rfl
          · exact absurd (h4 hst) hcl
      · exact ⟨⟨h1, h2, h3, h4, h5⟩, by first | exact Or.inl rfl | simp⟩
  | close =>
      show InvPS (stepClose s) ∧ _
      unfold stepClose
      split_ifs with hcl
      · exact ⟨⟨h1, h2, h3, h4, h5⟩, by first | exact Or.inl rfl | simp⟩
      · refine ⟨⟨h1, h2, h3, fun _ => rfl, h5⟩, Or.inl rfl⟩

lemma run_SysInv (s : Sys) (acts : List Act) (h : SysInv s) : SysInv (run s acts) := by
  induction acts generalizing s with
  | nil => exact h
  | cons a rest ih => exact ih (step s a) (step_SysInv s a h)

lemma run_InvPS (s : Sys) (acts : List Act) (h : InvPS s) : InvPS (run s acts) := by
  induction acts generalizing s with
  | nil => exact h
  | cons a rest ih => exact ih (step s a) (step_InvPS s a h).1

lemma mkSys_SysInv (cap high low : Nat) (cfg : ReconnectConfig) (hcap : 0 < cap) :
    SysInv (mkSys cap high low cfg) := by
  refine ⟨⟨by simp [mkSys, mkBS], by simp [mkSys, mkBS],
    by simpa [mkSys, mkBS] using hcap, by simp [mkSys, mkBS]⟩,
    fun _ => rfl, by simp [mkSys, mkBS, contents, outputBytes]⟩

lemma mkSys_InvPS (cap high low : Nat) (cfg : ReconnectConfig) :
    InvPS (mkSys cap high low cfg) := by
  refine ⟨?_, ?_, ?_, ?_, rfl⟩
  · intro hpcs
    rcases hpcs with hh | hh <;> cases hh
  · intro hE
    cases hE
  · constructor
    · intro hC
      cases hC
    · intro hpcs
      rcases hpcs with hh | hh <;> cases hh
  · intro hC
    cases hC

/-- C1: for every sequence of writes into the ring buffer (total size may
exceed capacity, forcing wraparound and waiting) interleaved with reads of
arbitrary sizes — any scheduler script over a freshly started stream —
once the run has consumed everything (no bytes resident in the ring and no
write still pending), the concatenation of the bytes returned by the read
calls equals, byte for byte and in order, the concatenation of the bytes
passed to `writeToBuffer`. -/
theorem c1_fifo_roundtrip (cap high low : Nat) (cfg : ReconnectConfig)
    (script : List Act) (hcap : 0 < cap)
    (hdrained : contents (run (mkSys cap high low cfg) script).bs = [])
    (hnopending : (run (mkSys cap high low cfg) script).prod.pendingData = []) :
    outputBytes (run (mkSys cap high low cfg) script).outputs =
      (run (mkSys cap high low cfg) script).written := by
  obtain ⟨hring, hpend, heq⟩ :=
    run_SysInv (mkSys cap high low cfg) script (mkSys_SysInv cap high low cfg hcap)
  rw [hdrained, hnopending, List.append_nil, List.append_nil] at heq
  exact heq

/-- C1 witness: a concrete run on a 4-byte ring with 7 bytes written across
a wraparound and a blocked-writer wait, fully drained; the reads return
exactly the written bytes in order. -/
theorem c1_fifo_roundtrip_witness :
    0 < 4 ∧ contents (run (mkSys 4 2 1 cfgTest) c1Script).bs = [] ∧
    (run (mkSys 4 2 1 cfgTest) c1Script).prod.pendingData = [] ∧
    outputBytes (run (mkSys 4 2 1 cfgTest) c1Script).outputs =
      (run (mkSys 4 2 1 cfgTest) c1Script).written :=
  ⟨by decide, by decide, by decide,
    c1_fifo_roundtrip 4 2 1 cfgTest c1Script (by decide) (by decide) (by decide)⟩

lemma c2_stuck_step (s : Sys) (a : Act) (d : List Nat) (hne : d ≠ [])
    (hcl : s.bs.closed = true) (hfull : s.bs.filled = s.bs.capacity)
    (hpc : s.prod.pc = ProdPC.writing none) (hpd : s.prod.pendingData = d)
    (hst : s.statsClosed = 0) :
    (step s a).bs.closed = true ∧
    (step s a).bs.filled = (step s a).bs.capacity ∧
    (step s a).prod.pc = ProdPC.writing none ∧
    (step s a).prod.pendingData = d ∧
    (step s a).statsClosed = 0 := by
  have hpan : ¬s.prod.pc = ProdPC.panicked := by rw [hpc]; simp
  cases a with
  | prodStep =>
      rw [show step s Act.prodStep = s from by
        rw [step.eq_def, if_neg hpan]
        show stepProd s = s
        simp only [stepProd, hpc]
        rw [if_neg (show ¬s.prod.pendingData = [] by rw [hpd]; exact hne),
          if_pos (show s.bs.capacity - s.bs.filled = 0 by omega)]]
      exact ⟨hcl, hfull, hpc, hpd, hst⟩
  | netRead d2 e =>
      rw [show step s (Act.netRead d2 e) = s from by
        rw [step.eq_def, if_neg hpan]
        show stepNetRead s d2 e = s
        simp [stepNetRead, hpc]]
      exact ⟨hcl, hfull, hpc, hpd, hst⟩
  | sleepDone =>
      rw [show step s Act.sleepDone = s from by
        rw [step.eq_def, if_neg hpan]
        show stepSleepDone s = s
        simp [stepSleepDone, hpc]]
      exact ⟨hcl, hfull, hpc, hpd, hst⟩
  | connTry ok =>
      rw [show step s (Act.connTry ok) = s from by
        rw [step.eq_def, if_neg hpan]
        show stepConnTry s ok = s
        simp [stepConnTry, hpc]]
      exact ⟨hcl, hfull, hpc, hpd, hst⟩
  | consRead n =>
      rcases hLE : s.bs.lastError with _ | e
      · rw [show step s (Act.consRead n) =
            { s with outputs := s.outputs ++ [ReadResult.eofSig] } from by
          rw [step.eq_def, if_neg hpan]
          show stepConsRead s n = _
          simp [stepConsRead, hcl, hLE]]
        exact ⟨hcl, hfull, hpc, hpd, hst⟩
      · rw [show step s (Act.consRead n) =
            { s with outputs := s.outputs ++ [ReadResult.errSig e] } from by
          rw [step.eq_def, if_neg hpan]
          show stepConsRead s n = _
          simp [stepConsRead, hcl, hLE]]
        exact ⟨hcl, hfull, hpc, hpd, hst⟩
  | close =>
      rw [show step s Act.close = s from by
        rw [step.eq_def, if_neg hpan]
        show stepClose s = s
        simp [stepClose, hcl]]
      exact ⟨hcl, hfull, hpc, hpd, hst⟩

lemma c2_stuck_run (s : Sys) (acts : List Act) (d : List Nat) (hne : d ≠ [])
    (hcl : s.bs.closed = true) (hfull : s.bs.filled = s.bs.capacity)
    (hpc : s.prod.pc = ProdPC.writing none) (hpd : s.prod.pendingData = d)
    (hst : s.statsClosed = 0) :
    (run s acts).bs.closed = true ∧
    (run s acts).bs.filled = (run s acts).bs.capacity ∧
    (run s acts).prod.pc = ProdPC.writing none ∧
    (run s acts).prod.pendingData = d ∧
    (run s acts).statsClosed = 0 := by
  induction acts generalizing s with
  | nil => exact ⟨hcl, hfull, hpc, hpd, hst⟩
  | cons a rest ih =>
      obtain ⟨h1, h2, h3, h4, h5⟩ := c2_stuck_step s a d hne hcl hfull hpc hpd hst
      exact ih (step s a) h1 h2 h3 h4 h5

/-- C2: after `Close` has completed on a stream whose producer is blocked
writing into a full ring buffer, no schedule of further steps ever lets
the blocked write return: the producer stays inside `writeToBuffer` with
its byte still pending (its wait loop re-checks only the free space, never
the closed flag, and reads return immediately once closed without
draining), so `fillLoop` never exits and the stats channel is never
closed. -/
theorem c2_close_leaves_writer_blocked (acts : List Act) :
    (run c2Sys acts).prod.pc = ProdPC.writing none ∧
    (run c2Sys acts).prod.pendingData = [3] ∧
    (run c2Sys acts).statsClosed = 0 := by
  obtain ⟨h1, h2, h3, h4, h5⟩ := c2_stuck_run c2Sys acts [3] (by decide)
    (by decide) (by decide) (by decide) (by decide) (by decide)
  exact ⟨h3, h4, h5⟩

/-- C3: with `maxRetries = 3`, after one network read error and a single
failed reconnection attempt, the producer loops back and dereferences the
nil response: the goroutine panics (deferred cleanup runs while unwinding
and the process dies) with `lastError` still unset and only one retry
counted — the claimed four-failure Error path is never reached. -/
theorem c3_failed_reconnect_panics :
    (run (mkSys 8 4 2 cfgRetries3) c3Script).prod.pc = ProdPC.panicked ∧
    (run (mkSys 8 4 2 cfgRetries3) c3Script).bs.lastError = none ∧
    (run (mkSys 8 4 2 cfgRetries3) c3Script).prod.retries = 1 := by
  decide

/-- C4 counterexample: after the stream ends fatally, two successive `read`
calls BOTH return the stored error — the error is not reported to exactly
one read. -/
theorem c4_error_returned_twice :
    (run (mkSys 8 4 2 cfgTest)
        (fatalEndScript ++ [Act.consRead 1, Act.consRead 1])).outputs =
      [ReadResult.errSig GoError.streamEndedUnexpectedly,
       ReadResult.errSig GoError.streamEndedUnexpectedly] := by
  decide

/-- C4 amended: a fatal condition is captured into `lastError`, and every
subsequent `read` call that observes the closed stream returns that stored
error (repeatedly — the error is never cleared), leaving the stream state
untouched. -/
theorem c4_error_reported_every_read (s : Sys) (e : GoError) (n : Nat)
    (hcl : s.bs.closed = true) (hle : s.bs.lastError = some e) :
    stepConsRead s n = { s with outputs := s.outputs ++ [ReadResult.errSig e] } := by
  unfold stepConsRead
  rw [if_pos hcl]
  simp only [hle]

/-- C4 witness: applying the amended theorem right after the fatal EOF run. -/
theorem c4_error_reported_every_read_witness :
    (run (mkSys 8 4 2 cfgTest) fatalEndScript).bs.closed = true ∧
    (run (mkSys 8 4 2 cfgTest) fatalEndScript).bs.lastError =
      some GoError.streamEndedUnexpectedly ∧
    stepConsRead (run (mkSys 8 4 2 cfgTest) fatalEndScript) 1 =
      { run (mkSys 8 4 2 cfgTest) fatalEndScript with
          outputs := (run (mkSys 8 4 2 cfgTest) fatalEndScript).outputs ++
            [ReadResult.errSig GoError.streamEndedUnexpectedly] } :=
  ⟨by decide, by decide,
    c4_error_reported_every_read _ GoError.streamEndedUnexpectedly 1
      (by decide) (by decide)⟩

/-- C5 counterexample: a run in which the stream ends fatally walks
`Error` and then `Closed` — the state changes again after `Error`, so
`Error` is not terminal. -/
theorem c5_error_is_left :
    (run (mkSys 8 4 2 cfgTest) (fatalEndScript.take 3)).bs.state =
      BufferState.error ∧
    (run (mkSys 8 4 2 cfgTest) fatalEndScript).bs.state =
      BufferState.closed := by
  decide

lemma codeEdgeB_from_closed (b : BufferState)
    (h : codeEdgeB BufferState.closed b = true) : b = BufferState.closed := by
  cases b
  · exact absurd h (by decide)
  · exact absurd h (by decide)
  · exact absurd h (by decide)
  · exact absurd h (by decide)
  · rfl

/-- C5 amended: over any run from a fresh stream, every step either leaves
the state unchanged or takes an edge of the section 4.2 graph extended
with Buffering→Underrun (connection lost before the first fill) and
Error→Underrun (an empty-buffer read observing Error before the
producer's cleanup); the graph's any→Closed edge is also taken from
`Error` by the producer's deferred cleanup, so Error is not terminal,
while Closed is never left. -/
theorem c5_state_walk (cap high low : Nat) (cfg : ReconnectConfig)
    (script : List Act) (a : Act) :
    ((step (run (mkSys cap high low cfg) script) a).bs.state =
        (run (mkSys cap high low cfg) script).bs.state ∨
      codeEdgeB (run (mkSys cap high low cfg) script).bs.state
        (step (run (mkSys cap high low cfg) script) a).bs.state = true) ∧
    ((run (mkSys cap high low cfg) script).bs.state = BufferState.closed →
      (step (run (mkSys cap high low cfg) script) a).bs.state =
        BufferState.closed) := by
  have hinv := run_InvPS (mkSys cap high low cfg) script (mkSys_InvPS cap high low cfg)
  have hstep := step_InvPS (run (mkSys cap high low cfg) script) a hinv
  refine ⟨hstep.2, ?_⟩
  intro hC
  rcases hstep.2 with hh | hh
  · rw [hh, hC]
  · rw [hC] at hh
    exact codeEdgeB_from_closed _ hh

/-- C6: two concurrent `Close` callers can both pass the `closed` check
(taken and released under the mutex) before either closes `stopChan`; the
second `close(bs.stopChan)` is then a close of a closed channel, which
panics. -/
theorem c6_concurrent_close_panics :
    (closeRun closeInit [true, false, true, false]).panicked = true := by
  decide

/-- C7 counterexample: from a producer state whose backoff has escalated to
4 (initial backoff 1), a successful reconnection followed by a read failure
that delivers no bytes reaches the backoff sleep still holding 4 — the
wait before the next reconnection does not start again from
`initialBackoff`. -/
theorem c7_backoff_not_reset_on_reconnect :
    (run c7Sys c7Script).prod.pc = ProdPC.sleeping ∧
    (run c7Sys c7Script).prod.backoff = 4 ∧
    c7Sys.cfg.initialBackoff = 1 := by
  decide

/-- C7 amended: the backoff is reset to `initialBackoff` exactly when a
read returns bytes (when `writeToBuffer` finishes delivering them); a
successful reconnection by itself leaves the backoff unchanged, so if no
bytes are read before the next failure, the next wait uses the previous
(escalated) backoff. -/
theorem c7_backoff_reset_rule (s : Sys) :
    (s.prod.pc = ProdPC.reconnecting →
      (step s (Act.connTry true)).prod.backoff = s.prod.backoff) ∧
    (∀ e, s.prod.pc = ProdPC.writing e → s.prod.pendingData = [] →
      (step s Act.prodStep).prod.backoff = s.cfg.initialBackoff) := by
  constructor
  · intro hpc
    have hpan : ¬s.prod.pc = ProdPC.panicked := by rw [hpc]; simp
    rw [step.eq_def, if_neg hpan]
    show (stepConnTry s true).prod.backoff = s.prod.backoff
    simp [stepConnTry, hpc]
  · intro e hpc hpd
    have hpan : ¬s.prod.pc = ProdPC.panicked := by rw [hpc]; simp
    rw [step.eq_def, if_neg hpan]
    show (stepProd s).prod.backoff = s.cfg.initialBackoff
    simp only [stepProd, hpc]
    rw [if_pos hpd]
    rfl

/-- C7 witness: the amended rule applied at the concrete reconnecting
state `c7Sys` and at a concrete mid-write state. -/
theorem c7_backoff_reset_rule_witness :
    c7Sys.prod.pc = ProdPC.reconnecting ∧
    (step c7Sys (Act.connTry true)).prod.backoff = c7Sys.prod.backoff ∧
    (run (mkSys 4 2 1 cfgTest)
        [Act.prodStep, Act.netRead [9] none, Act.prodStep]).prod.pc =
      ProdPC.writing none ∧
    (step (run (mkSys 4 2 1 cfgTest)
        [Act.prodStep, Act.netRead [9] none, Act.prodStep]) Act.prodStep).prod.backoff =
      (run (mkSys 4 2 1 cfgTest)
        [Act.prodStep, Act.netRead [9] none, Act.prodStep]).cfg.initialBackoff :=
  ⟨by decide, (c7_backoff_reset_rule c7Sys).1 (by decide), by decide,
    (c7_backoff_reset_rule _).2 none (by decide) (by decide)⟩

/-- C8 counterexample: a full run in which a reconnection succeeds with
`filled = 1` below the low watermark 2: the state becomes Buffering (first
half of the claim holds) but the very next read returns the resident byte
instead of blocking until the fill reaches the high watermark 4 — the
initial-fill gate is not re-imposed. -/
theorem c8_read_not_gated_after_reconnect :
    (run (mkSys 8 4 2 cfgTest) c8Script).bs.state = BufferState.buffering ∧
    (run (mkSys 8 4 2 cfgTest) c8Script).bs.filled = 1 ∧
    (run (mkSys 8 4 2 cfgTest) c8Script).bs.highWatermark = 4 ∧
    (run (mkSys 8 4 2 cfgTest) (c8Script ++ [Act.consRead 5])).outputs =
      [ReadResult.bytes [1, 2, 3], ReadResult.bytes [4]] := by
  decide

/-- C8 amended: if a reconnection succeeds while `filled` is below
`lowWatermark`, the state becomes Buffering but the `initialFill` flag is
not re-set, so the initial-fill gate is not re-entered: any subsequent
read finding `filled > 0` on the open stream returns data immediately,
blocking only while the buffer is empty. -/
theorem c8_reconnect_low_fill (s : Sys) (n : Nat) :
    (s.prod.pc = ProdPC.reconnecting → s.bs.filled < s.bs.lowWatermark →
      (step s (Act.connTry true)).bs.state = BufferState.buffering ∧
      (step s (Act.connTry true)).bs.initialFill = s.bs.initialFill) ∧
    (s.bs.closed = false → s.bs.initialFill = false → 0 < s.bs.filled →
      stepConsRead s n = { s with
        bs := (readData s.bs n).1
        outputs := s.outputs ++ [ReadResult.bytes (readData s.bs n).2] }) := by
  constructor
  · intro hpc hlow
    have hpan : ¬s.prod.pc = ProdPC.panicked := by rw [hpc]; simp
    rw [step.eq_def, if_neg hpan]
    have hshow : stepConnTry s true = { s with
        respOpen := true
        bs := { s.bs with state :=
          if s.bs.lowWatermark ≤ s.bs.filled then BufferState.healthy
          else BufferState.buffering }
        prod := { s.prod with pc := ProdPC.top } } := by
      simp [stepConnTry, hpc]
    show (stepConnTry s true).bs.state = BufferState.buffering ∧
      (stepConnTry s true).bs.initialFill = s.bs.initialFill
    rw [hshow]
    constructor
    · show (if s.bs.lowWatermark ≤ s.bs.filled then BufferState.healthy
        else BufferState.buffering) = BufferState.buffering
      rw [if_neg (by omega)]
    · rfl
  · intro hcl hif hfil
    unfold stepConsRead
    rw [if_neg (by rw [hcl]; simp), if_neg (by rw [hif]; simp), if_pos hfil]

/-- C8 witness: the amended statement applied on the concrete C8 run — at
the moment of the successful low-fill reconnect, and at the state just
after it. -/
theorem c8_reconnect_low_fill_witness :
    (run (mkSys 8 4 2 cfgTest) (c8Script.take 9)).prod.pc = ProdPC.reconnecting ∧
    (step (run (mkSys 8 4 2 cfgTest) (c8Script.take 9))
        (Act.connTry true)).bs.state = BufferState.buffering ∧
    stepConsRead (run (mkSys 8 4 2 cfgTest) c8Script) 5 =
      { run (mkSys 8 4 2 cfgTest) c8Script with
          bs := (readData (run (mkSys 8 4 2 cfgTest) c8Script).bs 5).1
          outputs := (run (mkSys 8 4 2 cfgTest) c8Script).outputs ++
            [ReadResult.bytes (readData (run (mkSys 8 4 2 cfgTest) c8Script).bs 5).2] } :=
  ⟨by decide,
    ((c8_reconnect_low_fill (run (mkSys 8 4 2 cfgTest) (c8Script.take 9)) 5).1
      (by decide) (by decide)).1,
    (c8_reconnect_low_fill (run (mkSys 8 4 2 cfgTest) c8Script) 5).2
      (by decide) (by decide) (by decide)⟩

/-- C9 counterexample: with the single-slot queue already holding an
unread value, the poller's delivery blocks: the send is suspended
(`blockedSend`) and the slot still holds the old value — the poller does
wait for the consumer. -/
theorem c9_delivery_blocks_when_slot_full :
    (deliver (deliver { slot := none, blockedSend := none } { title := "a" })
        { title := "b" }).blockedSend = some { title := "b" } ∧
    (deliver (deliver { slot := none, blockedSend := none } { title := "a" })
        { title := "b" }).slot = some { title := "a" } := by
  decide

/-- C9 amended: the hand-off is non-blocking only while the slot is empty;
when the slot already holds an unread value the poller blocks on the send
(the new title neither replaces nor drops the old one) until the consumer
receives. -/
theorem c9_delivery_blocking_rule (s : MetaSys) (t : TrackInfo) :
    (s.slot = none → deliver s t = { s with slot := some t }) ∧
    (∀ v, s.slot = some v → (deliver s t).blockedSend = some t ∧
      (deliver s t).slot = some v) := by
  constructor
  · intro h
    unfold deliver
    rw [h]
  · intro v h
    unfold deliver
    rw [h]
    exact ⟨rfl, rfl⟩

/-- C9 witness: the amended rule applied to an empty slot and to a full
slot. -/
theorem c9_delivery_blocking_rule_witness :
    deliver { slot := none, blockedSend := none } { title := "a" } =
      { slot := some { title := "a" }, blockedSend := none } ∧
    (deliver { slot := some { title := "a" }, blockedSend := none }
        { title := "b" }).blockedSend = some { title := "b" } :=
  ⟨(c9_delivery_blocking_rule { slot := none, blockedSend := none }
      { title := "a" }).1 rfl,
    ((c9_delivery_blocking_rule { slot := some { title := "a" }, blockedSend := none }
      { title := "b" }).2 { title := "a" } rfl).1⟩

/-- C10: over every run from a fresh stream, the stats channel is closed
at most once, and whenever the producer goroutine has exited — normally or
by panic — its deferred cleanup has run: the closed flag is set, the state
is Closed, and the stats channel has been closed exactly once. -/
theorem c10_cleanup_always_runs (cap high low : Nat) (cfg : ReconnectConfig)
    (script : List Act) :
    (run (mkSys cap high low cfg) script).statsClosed ≤ 1 ∧
    ((run (mkSys cap high low cfg) script).prod.pc = ProdPC.exited ∨
      (run (mkSys cap high low cfg) script).prod.pc = ProdPC.panicked →
      (run (mkSys cap high low cfg) script).bs.closed = true ∧
      (run (mkSys cap high low cfg) script).bs.state = BufferState.closed ∧
      (run (mkSys cap high low cfg) script).statsClosed = 1) := by
  obtain ⟨h1, h2, h3, h4, h5⟩ :=
    run_InvPS (mkSys cap high low cfg) script (mkSys_InvPS cap high low cfg)
  constructor
  · rw [h5]
    split_ifs <;> omega
  · intro hpcs
    have hC := h3.mpr hpcs
    exact ⟨h4 hC, hC, by rw [h5, if_pos hpcs]⟩

/-- C10 witness: a concrete run in which `Close` stops the producer; after
its cleanup the closed flag is set, the state is Closed and the stats
channel was closed exactly once. -/
theorem c10_cleanup_always_runs_witness :
    (run (mkSys 4 2 1 cfgTest) c10Script).prod.pc = ProdPC.exited ∧
    (run (mkSys 4 2 1 cfgTest) c10Script).bs.closed = true ∧
    (run (mkSys 4 2 1 cfgTest) c10Script).bs.state = BufferState.closed ∧
    (run (mkSys 4 2 1 cfgTest) c10Script).statsClosed = 1 :=
  ⟨by decide,
    (c10_cleanup_always_runs 4 2 1 cfgTest c10Script).2 (Or.inl (by decide))⟩
